import Mathlib

/-!
Verification development for the round-robin league manager (`src/App.tsx`).

The TypeScript component state and its event handlers are shallowly embedded
as pure Lean functions over explicit state records.  JS `number` scores are
modelled as `Option Int` (`''` becomes `none`), JS `Set` insertion order is
modelled by append-if-absent lists, and the `savedLeagues` localStorage record
is modelled as an insertion-ordered association list.
-/

namespace Roaster

/-- Generic in-place update of a list element, mirroring `arr[i] = f(arr[i])`
on a JS array (no-op when the index is out of range). -/
def updateAt {α : Type} : List α → Nat → (α → α) → List α
  | [], _, _ => []
  | x :: xs, 0, f => f x :: xs
  | x :: xs, k + 1, f => x :: updateAt xs k f

/-- `Player` record from `App.tsx`. -/
structure Player where
  id : String
  name : String
deriving DecidableEq

/-- `Team` record from `App.tsx`. -/
structure Team where
  id : String
  name : String
  players : List Player
deriving DecidableEq

/-- `TeamStat` record from `App.tsx`; all numeric fields are JS numbers. -/
structure TeamStat where
  name : String
  played : Int
  wins : Int
  draws : Int
  losses : Int
  gf : Int
  ga : Int
  gd : Int
  points : Int
deriving DecidableEq, Inhabited

/-- `ScorerEntry` record from `App.tsx`. -/
structure ScorerEntry where
  playerId : String
  playerName : String
  goals : Int
deriving DecidableEq

/-- `MatchResult` record from `App.tsx`.  A score of `''` (unset) is `none`;
the optional snapshot fields are `none` when `undefined`. -/
structure MatchResult where
  team1Id : String
  team2Id : String
  team1Score : Option Int
  team2Score : Option Int
  team1GoalScorers : List ScorerEntry
  team2GoalScorers : List ScorerEntry
  saved : Bool
  goalScorerMismatch : Bool
  isEditing : Bool
  originalScores : Option (Option Int × Option Int)
  originalGoalScorers : Option (List ScorerEntry × List ScorerEntry)
deriving DecidableEq, Inhabited

/-- `SavedLeagueState` record from `App.tsx`. -/
structure SavedLeagueState where
  numTeams : Nat
  numPlayersPerTeam : Nat
  submittedTeamData : List Team
  matchResults : List MatchResult
  teamStats : List TeamStat
  roundNumber : Nat
  allPlayedPairs : List String
  globalIdCounterValue : Nat
deriving DecidableEq

/-- The live component state of `App` (the slices the handlers read/write).
`allPlayedPairs` is the JS `Set` in insertion order; `idCounter` is the
module-level `globalIdCounter`. -/
structure LeagueState where
  numTeams : Nat
  numPlayersPerTeam : Nat
  teamData : List Team
  submittedTeamData : List Team
  matchesList : List (String × String)
  matchResults : List MatchResult
  teamStats : List TeamStat
  roundNumber : Nat
  allPlayedPairs : List String
  idCounter : Nat
deriving DecidableEq

/-- Which side of a match an operation refers to (`teamNum` 1 or 2). -/
inductive Side where
  | one
  | two
deriving DecidableEq

/-- Lexicographic code-unit comparison on character lists, the order JS
`Array.prototype.sort` applies to strings without a comparator. -/
def charListLe : List Char → List Char → Bool
  | [], _ => true
  | _ :: _, [] => false
  | c :: cs, d :: ds =>
    if c.val.toNat < d.val.toNat then true
    else if d.val.toNat < c.val.toNat then false
    else charListLe cs ds

/-- String comparison in JS default sort order. -/
def strLe (a b : String) : Bool := charListLe a.data b.data

/-- JS `String.prototype.trim`: drop whitespace at both ends. -/
def strTrim (s : String) : String :=
  ⟨((s.data.dropWhile Char.isWhitespace).reverse.dropWhile
    Char.isWhitespace).reverse⟩

/-- `normalizePair` from `App.tsx`: the two names sorted and joined by `-`. -/
def normalizePair (teamA teamB : String) : String :=
  if strLe teamA teamB then teamA ++ "-" ++ teamB else teamB ++ "-" ++ teamA

/-- JS `Set.prototype.add`: append the element if it is not already present. -/
def setAdd (l : List String) (x : String) : List String :=
  if x ∈ l then l else l ++ [x]

/-- `new Set(array)`: deduplicate keeping first occurrences. -/
def dedupFirst (l : List String) : List String :=
  l.foldl setAdd []

/-- The nested j-loop of `generateAllRoundRobinMatches`, producing the pairs
`(i, j)` with `i < j < n` in the source's loop order. -/
def rrIdxPairs (n : Nat) : List (Nat × Nat) :=
  (List.range n).flatMap fun i =>
    ((List.range n).filter fun j => i < j).map fun j => (i, j)

/-- All ordered head-tail pairs of a list: for every element, the pairs with
each strictly later element, in order.  Companion of `rrIdxPairs` used to
reason about it by structural induction. -/
def pairsAux {α : Type} : List α → List (α × α)
  | [] => []
  | x :: xs => (xs.map fun y => (x, y)) ++ pairsAux xs

/-- `generateAllRoundRobinMatches` from `App.tsx`: the fixture name pairs and
the initial `MatchResult` records.  Returns `([], [])` for fewer than two
teams. -/
def generateAllRoundRobinMatches (teams : List Team) :
    List (String × String) × List MatchResult :=
  let teamNames := teams.map (·.name)
  if teamNames.length < 2 then ([], [])
  else
    let newMatches := (List.range teamNames.length).flatMap fun i =>
      ((List.range teamNames.length).filter fun j => i < j).map fun j =>
        (teamNames.getD i "", teamNames.getD j "")
    let newMatchResults := newMatches.map fun mp =>
      { team1Id := ((teams.find? fun t => t.name == mp.1).map (·.id)).getD ""
        team2Id := ((teams.find? fun t => t.name == mp.2).map (·.id)).getD ""
        team1Score := none
        team2Score := none
        team1GoalScorers := []
        team2GoalScorers := []
        saved := false
        goalScorerMismatch := false
        isEditing := false
        originalScores := none
        originalGoalScorers := none : MatchResult }
    (newMatches, newMatchResults)

/-- `updateStatEntry` from `handleSaveResult`'s helper in `App.tsx`:
accumulate one side's line of a result into a `TeamStat`, with `mult = 1`
to add and `mult = -1` to revert; `gd` is recomputed as `gf - ga`. -/
def updateStatEntry (teamStat : TeamStat) (currentScore opponentScore : Int)
    (mult : Int) : TeamStat :=
  let t1 := { teamStat with
    played := teamStat.played + 1 * mult
    gf := teamStat.gf + currentScore * mult
    ga := teamStat.ga + opponentScore * mult }
  let t2 :=
    if currentScore > opponentScore then
      { t1 with wins := t1.wins + 1 * mult, points := t1.points + 3 * mult }
    else if currentScore < opponentScore then
      { t1 with losses := t1.losses + 1 * mult }
    else
      { t1 with draws := t1.draws + 1 * mult, points := t1.points + 1 * mult }
  { t2 with gd := t2.gf - t2.ga }

/-- The index-lookup-and-update tail of `applyMatchStatsToTeams`, once both
scores are numbers and both teams were resolved: both row indices are looked
up by team name first, then each found row is updated in place. -/
def applyScores (stats : List TeamStat) (team1Name team2Name : String)
    (score1 score2 mult : Int) : List TeamStat :=
  match stats.findIdx? fun t => t.name == team1Name,
      stats.findIdx? fun t => t.name == team2Name with
  | some k1, some k2 =>
    updateAt (updateAt stats k1 fun t => updateStatEntry t score1 score2 mult)
      k2 fun t => updateStatEntry t score2 score1 mult
  | some k1, none =>
    updateAt stats k1 fun t => updateStatEntry t score1 score2 mult
  | none, some k2 =>
    updateAt stats k2 fun t => updateStatEntry t score2 score1 mult
  | none, none => stats

/-- `applyMatchStatsToTeams` from `App.tsx`: apply (`mult = 1`) or revert
(`mult = -1`) a match's contribution to the stats table.  Returns the table
unchanged when either score is unset or either team id is not found. -/
def applyMatchStatsToTeams (stats : List TeamStat) (m : MatchResult)
    (submittedTeams : List Team) (mult : Int) : List TeamStat :=
  match m.team1Score, m.team2Score with
  | some score1, some score2 =>
    match submittedTeams.find? (fun t => t.id == m.team1Id),
        submittedTeams.find? (fun t => t.id == m.team2Id) with
    | some team1, some team2 =>
      applyScores stats team1.name team2.name score1 score2 mult
    | _, _ => stats
  | _, _ => stats

/-- Outcome of a `handleSaveResult` call. -/
inductive SaveStatus where
  | missingScore
  | mismatch
  | success
deriving DecidableEq

/-- `handleScoreChange` from `App.tsx`: set one side's score of match
`matchIndex` (already parsed; `''` is `none`) and clear the mismatch flag. -/
def handleScoreChange (s : LeagueState) (matchIndex : Nat) (side : Side)
    (score : Option Int) : LeagueState :=
  { s with matchResults := updateAt s.matchResults matchIndex fun m =>
      match side with
      | .one => { m with team1Score := score, goalScorerMismatch := false }
      | .two => { m with team2Score := score, goalScorerMismatch := false } }

/-- `handlePlayerGoalChange` from `App.tsx`: overwrite the tally of the
scorer at `scorerIndex` (`''` parses to `0`) and clear the mismatch flag. -/
def handlePlayerGoalChange (s : LeagueState) (matchIndex : Nat) (side : Side)
    (scorerIndex : Nat) (value : Option Int) : LeagueState :=
  let goals := value.getD 0
  { s with matchResults := updateAt s.matchResults matchIndex fun m =>
      match side with
      | .one => { m with
          team1GoalScorers := updateAt m.team1GoalScorers scorerIndex
            fun e => { e with goals := goals }
          goalScorerMismatch := false }
      | .two => { m with
          team2GoalScorers := updateAt m.team2GoalScorers scorerIndex
            fun e => { e with goals := goals }
          goalScorerMismatch := false } }

/-- The team id a side of a match refers to. -/
def sideTeamId (side : Side) (m : MatchResult) : String :=
  match side with
  | .one => m.team1Id
  | .two => m.team2Id

/-- The scorer list of a side of a match. -/
def sideScorers (side : Side) (m : MatchResult) : List ScorerEntry :=
  match side with
  | .one => m.team1GoalScorers
  | .two => m.team2GoalScorers

/-- The per-match update of `handleSelectGoalScorer`: append the selected
player with a default tally of 1 goal unless already listed or not on the
side's team, and clear the mismatch flag. -/
def selectScorerUpdate (teams : List Team) (side : Side) (playerId : String)
    (m : MatchResult) : MatchResult :=
  let teamIdToFind := sideTeamId side m
  let teamPlayers :=
    (((teams.find? fun t => t.id == teamIdToFind).map (·.players)).getD [])
  let gs := sideScorers side m
  let gs' :=
    if gs.any fun sc => sc.playerId == playerId then gs
    else
      match teamPlayers.find? fun p => p.id == playerId with
      | some p => gs ++ [{ playerId := p.id, playerName := p.name, goals := 1 }]
      | none => gs
  match side with
  | .one => { m with team1GoalScorers := gs', goalScorerMismatch := false }
  | .two => { m with team2GoalScorers := gs', goalScorerMismatch := false }

/-- `handleSelectGoalScorer` from `App.tsx`: add `playerId` to the side's
scorer list with a default tally of 1 goal, unless the empty player is
selected, the player is already listed, or the player is not on the side's
team; the mismatch flag is cleared whenever the list is rebuilt. -/
def handleSelectGoalScorer (s : LeagueState) (matchIndex : Nat) (side : Side)
    (playerId : String) : LeagueState :=
  if playerId = "" then s
  else
    { s with
      matchResults := updateAt s.matchResults matchIndex
        (selectScorerUpdate s.submittedTeamData side playerId) }

/-- `handleRemoveGoalScorer` from `App.tsx`: drop the scorer with the given
player id from the side's list and clear the mismatch flag. -/
def handleRemoveGoalScorer (s : LeagueState) (matchIndex : Nat) (side : Side)
    (scorerIdToRemove : String) : LeagueState :=
  { s with matchResults := updateAt s.matchResults matchIndex fun m =>
      match side with
      | .one => { m with
          team1GoalScorers := m.team1GoalScorers.filter
            fun sc => sc.playerId != scorerIdToRemove
          goalScorerMismatch := false }
      | .two => { m with
          team2GoalScorers := m.team2GoalScorers.filter
            fun sc => sc.playerId != scorerIdToRemove
          goalScorerMismatch := false } }

/-- The scorer-sum/score mismatch test of `handleSaveResult`: with a positive
roster size, some side's tally sum differs from its score. -/
def saveMismatch (numPlayersPerTeam : Nat) (r : MatchResult)
    (score1 score2 : Int) : Bool :=
  if numPlayersPerTeam > 0 then
    ((r.team1GoalScorers.map (·.goals)).sum != score1) ||
      ((r.team2GoalScorers.map (·.goals)).sum != score2)
  else false

/-- The `setMatchResults` update of `handleSaveResult`'s mismatch path:
flag the attempted match for UI feedback. -/
def setMismatchFlag (m : MatchResult) : MatchResult :=
  { m with goalScorerMismatch := true }

/-- The `setMatchResults` update of `handleSaveResult`'s success path:
mark saved, leave editing, clear snapshots and the mismatch flag. -/
def markSaved (m : MatchResult) : MatchResult :=
  { m with
    saved := true
    isEditing := false
    originalScores := none
    originalGoalScorers := none
    goalScorerMismatch := false }

/-- The `setTeamStats` update of `handleSaveResult`'s success path: when the
result was saved and is being edited with a snapshot present, first revert
the snapshot's contribution, then apply the current one. -/
def saveSuccessStats (s : LeagueState) (r : MatchResult) : List TeamStat :=
  let cur :=
    match r.saved, r.isEditing, r.originalScores with
    | true, true, some os =>
      applyMatchStatsToTeams s.teamStats
        { r with team1Score := os.1, team2Score := os.2 } s.submittedTeamData (-1)
    | _, _, _ => s.teamStats
  applyMatchStatsToTeams cur r s.submittedTeamData 1

/-- `handleSaveResult` from `App.tsx`.  `none` when an array access that
would throw in JS occurs (never in reachable states); otherwise the next
state together with which branch was taken.  On a missing score or a scorer
mismatch the handler shows an alert and aborts; a mismatch additionally
flags the match. -/
def handleSaveResult (s : LeagueState) (matchIndex : Nat) :
    Option (LeagueState × SaveStatus) :=
  match s.matchResults[matchIndex]? with
  | none => none
  | some resultToSave =>
    match resultToSave.team1Score, resultToSave.team2Score with
    | some score1, some score2 =>
      if saveMismatch s.numPlayersPerTeam resultToSave score1 score2 then
        some ({ s with
            matchResults := updateAt s.matchResults matchIndex
              setMismatchFlag },
          SaveStatus.mismatch)
      else
        match s.matchesList[matchIndex]? with
        | none => none
        | some mp =>
          some ({ s with
              teamStats := saveSuccessStats s resultToSave
              matchResults := updateAt s.matchResults matchIndex markSaved
              allPlayedPairs := setAdd s.allPlayedPairs (normalizePair mp.1 mp.2) },
            SaveStatus.success)
    | _, _ => some (s, SaveStatus.missingScore)

/-- `handleEditResult` from `App.tsx`: snapshot the current scores and
scorer lists, set `isEditing`, clear the mismatch flag. -/
def handleEditResult (s : LeagueState) (matchIndex : Nat) : LeagueState :=
  { s with matchResults := updateAt s.matchResults matchIndex fun m =>
      { m with
        isEditing := true
        originalScores := some (m.team1Score, m.team2Score)
        originalGoalScorers := some (m.team1GoalScorers, m.team2GoalScorers)
        goalScorerMismatch := false } }

/-- `handleCancelEdit` from `App.tsx`: restore the snapshots when present and
leave editing; without snapshots just leave editing. -/
def handleCancelEdit (s : LeagueState) (matchIndex : Nat) : LeagueState :=
  { s with matchResults := updateAt s.matchResults matchIndex fun m =>
      match m.originalScores, m.originalGoalScorers with
      | some os, some og =>
        { m with
          team1Score := os.1
          team2Score := os.2
          team1GoalScorers := og.1
          team2GoalScorers := og.2
          isEditing := false
          originalScores := none
          originalGoalScorers := none
          goalScorerMismatch := false }
      | _, _ => { m with isEditing := false, goalScorerMismatch := false } }

/-- `resetGameStates` from `App.tsx` (the slices modelled here). -/
def resetState : LeagueState :=
  { numTeams := 0, numPlayersPerTeam := 0, teamData := [],
    submittedTeamData := [], matchesList := [], matchResults := [],
    teamStats := [], roundNumber := 0, allPlayedPairs := [], idCounter := 0 }

/-- `startTheGames` from `App.tsx`: submit the teams; with fewer than two
teams only clear the fixtures, otherwise zero the stats table, generate the
round-robin fixtures and activate the league. -/
def startTheGames (s : LeagueState) (teamsToUse : List Team) : LeagueState :=
  let s := { s with submittedTeamData := teamsToUse }
  if teamsToUse.length < 2 then
    { s with matchesList := [], matchResults := [] }
  else
    let stats : List TeamStat := teamsToUse.map fun team =>
      { name := team.name, played := 0, wins := 0, draws := 0, losses := 0,
        gf := 0, ga := 0, gd := 0, points := 0 }
    let gen := generateAllRoundRobinMatches teamsToUse
    { s with
      teamStats := stats
      matchesList := gen.1
      matchResults := gen.2
      allPlayedPairs := []
      roundNumber := 1 }

/-- The per-result cleanup used by both league save and league load: transient
editing state is not persisted. -/
def clearEditing (m : MatchResult) : MatchResult :=
  { m with isEditing := false, originalScores := none, originalGoalScorers := none }

/-- The `stateToSave` snapshot constructed by `handleSaveLeagueConfirm`. -/
def saveState (s : LeagueState) : SavedLeagueState :=
  { numTeams := s.numTeams
    numPlayersPerTeam := s.numPlayersPerTeam
    submittedTeamData := s.submittedTeamData
    matchResults := s.matchResults.map clearEditing
    teamStats := s.teamStats
    roundNumber := s.roundNumber
    allPlayedPairs := s.allPlayedPairs
    globalIdCounterValue := s.idCounter }

/-- The `savedLeagues` record: league name to snapshot, in insertion order. -/
abbrev Store := List (String × SavedLeagueState)

/-- JS object spread `{...prev, [name]: state}`: update in place or append. -/
def upsert : Store → String → SavedLeagueState → Store
  | [], n, v => [(n, v)]
  | (k, w) :: rest, n, v =>
    if k = n then (n, v) :: rest else (k, w) :: upsert rest n v

/-- Lookup of a league name in the store. -/
def lookupStore (store : Store) (n : String) : Option SavedLeagueState :=
  (store.find? fun p => p.1 == n).map (·.2)

/-- `delete newLeagues[leagueName]` in `deleteLeagueFromStorage`. -/
def eraseStore (store : Store) (n : String) : Store :=
  store.filter fun p => p.1 != n

/-- `handleSaveLeagueConfirm` from `App.tsx`: `none` when the call does not
write (empty name alert, or an existing name without overwrite confirmation);
otherwise the updated store, keyed by the trimmed name. -/
def handleSaveLeagueConfirm (store : Store) (s : LeagueState)
    (saveLeagueInputName : String) (showOverwriteConfirm : Bool) :
    Option Store :=
  if strTrim saveLeagueInputName = "" then none
  else
    let leagueName := strTrim saveLeagueInputName
    if (lookupStore store leagueName).isSome ∧ showOverwriteConfirm = false then
      none
    else
      some (upsert store leagueName (saveState s))

/-- `handleLoadLeague` from `App.tsx`: when the name is stored, reset and
repopulate the live state from the snapshot (rebuilding the fixture display
pairs from team ids and clearing transient editing state); otherwise leave
the state unchanged. -/
def handleLoadLeague (store : Store) (s : LeagueState) (leagueName : String) :
    LeagueState :=
  match lookupStore store leagueName with
  | none => s
  | some lg =>
    let loadedMatches := lg.matchResults.map fun mr =>
      ((((lg.submittedTeamData.find? fun t => t.id == mr.team1Id).map
          (·.name)).getD "نامشخص"),
        (((lg.submittedTeamData.find? fun t => t.id == mr.team2Id).map
          (·.name)).getD "نامشخص"))
    { resetState with
      numTeams := lg.numTeams
      numPlayersPerTeam := lg.numPlayersPerTeam
      submittedTeamData := lg.submittedTeamData
      teamData := lg.submittedTeamData
      matchesList := loadedMatches
      matchResults := lg.matchResults.map clearEditing
      teamStats := lg.teamStats
      roundNumber := lg.roundNumber
      allPlayedPairs := dedupFirst lg.allPlayedPairs
      idCounter := lg.globalIdCounterValue }

/-- One row of the top-scorer aggregation: the object key (`playerId`)
together with the stored `{name, goals, teamName}` value. -/
structure ScorerAgg where
  playerId : String
  name : String
  teamName : String
  goals : Int
deriving DecidableEq

/-- Accumulate one `ScorerEntry` of the team with id `teamId` into the
insertion-ordered aggregation map of `calculateTopScorers`. -/
def addScorer (teams : List Team) (teamId : String) (acc : List ScorerAgg)
    (sc : ScorerEntry) : List ScorerAgg :=
  if acc.any fun e => e.playerId == sc.playerId then
    acc.map fun e =>
      if e.playerId == sc.playerId then { e with goals := e.goals + sc.goals }
      else e
  else
    acc ++ [{ playerId := sc.playerId
              name := sc.playerName
              teamName := ((teams.find? fun t => t.id == teamId).map
                (·.name)).getD "Unknown Team"
              goals := sc.goals }]

/-- Stable insertion of a row into a goals-descending-sorted list: walk past
every row with strictly more goals, so that rows with equal goals keep their
relative order. -/
def insertByGoals (x : ScorerAgg) : List ScorerAgg → List ScorerAgg
  | [] => [x]
  | y :: ys => if x.goals < y.goals then y :: insertByGoals x ys
    else x :: y :: ys

/-- The JS `sort((a, b) => b.goals - a.goals)`: the stable
goals-descending reordering. -/
def sortScorersDesc (l : List ScorerAgg) : List ScorerAgg :=
  l.foldr insertByGoals []

/-- The per-match body of `calculateTopScorers`'s `forEach`: accumulate
team 1's scorers, then team 2's. -/
def scorerFoldStep (teams : List Team) (acc : List ScorerAgg)
    (m : MatchResult) : List ScorerAgg :=
  let acc := m.team1GoalScorers.foldl (addScorer teams m.team1Id) acc
  m.team2GoalScorers.foldl (addScorer teams m.team2Id) acc

/-- `calculateTopScorers` from `App.tsx`: fold every match's scorer lists
(team 1 then team 2, saved or not) into the per-player aggregation map, then
sort the rows by total goals, descending. -/
def calculateTopScorers (matchResults : List MatchResult) (teams : List Team) :
    List ScorerAgg :=
  sortScorersDesc (matchResults.foldl (scorerFoldStep teams) [])

/-- Total goals credited to player `pid` over every match record, saved or
not: the sum of the player's tallies wherever they appear. -/
def totalGoals (pid : String) (matchResults : List MatchResult) : Int :=
  (matchResults.map fun m =>
    ((m.team1GoalScorers.filter fun sc => sc.playerId == pid).map
      (·.goals)).sum +
    ((m.team2GoalScorers.filter fun sc => sc.playerId == pid).map
      (·.goals)).sum).sum

/-- All (team id, scorer entry) occurrences in match order, team 1's list
before team 2's, exactly the traversal order of `calculateTopScorers`. -/
def scorerStream (matchResults : List MatchResult) :
    List (String × ScorerEntry) :=
  matchResults.flatMap fun m =>
    m.team1GoalScorers.map (fun sc => (m.team1Id, sc)) ++
      m.team2GoalScorers.map (fun sc => (m.team2Id, sc))

/-- Goals recorded for `pid` in an aggregation list. -/
def goalsOf (pid : String) (acc : List ScorerAgg) : Int :=
  ((acc.filter fun e => e.playerId == pid).map (·.goals)).sum

/-- Goals for `pid` in a stream of (team id, scorer entry) occurrences. -/
def streamSum (pid : String) (st : List (String × ScorerEntry)) : Int :=
  ((st.filter fun p => p.2.playerId == pid).map (·.2.goals)).sum

/-- The team-name tag `calculateTopScorers` attaches to a scorer row: the
name of the team with id `tid`, or the fallback when the lookup fails. -/
def teamTag (teams : List Team) (tid : String) : String :=
  ((teams.find? fun t => t.id == tid).map (·.name)).getD "Unknown Team"

/-- The whole application state: the live league slices plus the persisted
`savedLeagues` store. -/
structure GState where
  league : LeagueState
  store : Store
deriving DecidableEq

/-- The state at first mount with no previously persisted leagues. -/
def initGState : GState :=
  { league := resetState, store := [] }

/-- One user-triggered transition of the application.  Guards reflect when
the corresponding control is rendered/enabled in the UI: score and scorer
inputs are disabled on a saved result unless it is being edited, the save
button replaces the edit button exactly when `!saved || isEditing`, the edit
button is only rendered on a saved result that is not being edited, cancel
only while editing, and the league save/exit buttons only while a league is
active. -/
inductive Step : GState → GState → Prop where
  | setupCounts (g : GState) (nt np : Nat)
      (hstage : g.league.roundNumber = 0) :
      Step g { g with league :=
        { g.league with numTeams := nt, numPlayersPerTeam := np } }
  | startLeague (g : GState) (teams : List Team)
      (hstage : g.league.roundNumber = 0)
      (hcount : teams.length = g.league.numTeams) :
      Step g { g with league := startTheGames g.league teams }
  | scoreChange (g : GState) (i : Nat) (side : Side) (v : Option Int)
      (m : MatchResult) (hm : g.league.matchResults[i]? = some m)
      (hguard : m.saved = false ∨ m.isEditing = true) :
      Step g { g with league := handleScoreChange g.league i side v }
  | playerGoalChange (g : GState) (i : Nat) (side : Side) (k : Nat)
      (v : Option Int)
      (m : MatchResult) (hm : g.league.matchResults[i]? = some m)
      (hguard : m.saved = false ∨ m.isEditing = true) :
      Step g { g with league := handlePlayerGoalChange g.league i side k v }
  | selectScorer (g : GState) (i : Nat) (side : Side) (pid : String)
      (m : MatchResult) (hm : g.league.matchResults[i]? = some m)
      (hguard : m.saved = false ∨ m.isEditing = true) :
      Step g { g with league := handleSelectGoalScorer g.league i side pid }
  | removeScorer (g : GState) (i : Nat) (side : Side) (pid : String)
      (m : MatchResult) (hm : g.league.matchResults[i]? = some m)
      (hguard : m.saved = false ∨ m.isEditing = true) :
      Step g { g with league := handleRemoveGoalScorer g.league i side pid }
  | saveResult (g : GState) (i : Nat) (s' : LeagueState) (st : SaveStatus)
      (m : MatchResult) (hm : g.league.matchResults[i]? = some m)
      (hguard : m.saved = false ∨ m.isEditing = true)
      (hrun : handleSaveResult g.league i = some (s', st)) :
      Step g { g with league := s' }
  | editResult (g : GState) (i : Nat)
      (m : MatchResult) (hm : g.league.matchResults[i]? = some m)
      (hguard : m.saved = true ∧ m.isEditing = false) :
      Step g { g with league := handleEditResult g.league i }
  | cancelEdit (g : GState) (i : Nat)
      (m : MatchResult) (hm : g.league.matchResults[i]? = some m)
      (hguard : m.isEditing = true) :
      Step g { g with league := handleCancelEdit g.league i }
  | saveLeague (g : GState) (inputName : String) (ow : Bool) (store' : Store)
      (hactive : 0 < g.league.roundNumber)
      (hrun : handleSaveLeagueConfirm g.store g.league inputName ow =
        some store') :
      Step g { g with store := store' }
  | loadLeague (g : GState) (leagueName : String)
      (hstage : g.league.roundNumber = 0) :
      Step g { g with league := handleLoadLeague g.store g.league leagueName }
  | deleteLeague (g : GState) (leagueName : String) :
      Step g { g with store := eraseStore g.store leagueName }
  | resetLeague (g : GState) :
      Step g { g with league := resetState }

/-- States reachable from a fresh mount by user actions. -/
inductive Reachable : GState → Prop where
  | init : Reachable initGState
  | step {g g' : GState} : Reachable g → Step g g' → Reachable g'

/-- Total of the `wins` column of a stats table. -/
def sumWins (l : List TeamStat) : Int := (l.map (·.wins)).sum

/-- Total of the `losses` column of a stats table. -/
def sumLosses (l : List TeamStat) : Int := (l.map (·.losses)).sum

/-- Total of the `draws` column of a stats table. -/
def sumDraws (l : List TeamStat) : Int := (l.map (·.draws)).sum

/-- A saved result whose recorded scores differ (a decided match). -/
def isSavedNonDraw (m : MatchResult) : Bool :=
  m.saved && match m.team1Score, m.team2Score with
    | some a, some b => a != b
    | _, _ => false

/-- A saved result whose recorded scores coincide (a drawn match). -/
def isSavedDraw (m : MatchResult) : Bool :=
  m.saved && match m.team1Score, m.team2Score with
    | some a, some b => a == b
    | _, _ => false

/-- Number of saved results with a non-draw outcome. -/
def nonDrawSavedCount (l : List MatchResult) : Nat :=
  (l.filter isSavedNonDraw).length

/-- Number of saved results with a draw outcome. -/
def drawSavedCount (l : List MatchResult) : Nat :=
  (l.filter isSavedDraw).length

/-- The match record shown at index `i` (used to instantiate step guards on
concrete traces). -/
def resultAt (g : GState) (i : Nat) : MatchResult :=
  g.league.matchResults.getD i default

/-- The (state, status) pair a concrete `handleSaveResult` call produces. -/
def saveOutAt (g : GState) (i : Nat) : LeagueState × SaveStatus :=
  (handleSaveResult g.league i).getD (resetState, SaveStatus.missingScore)

/-- A two-team fixture used to exhibit a concrete reachable trace: register
teams A and B, save A-B as 2-1, edit the match and change the score to 1-1,
save the league under "L" while the edit is still open, exit and load "L". -/
def demoTeamA : Team := { id := "t1", name := "A", players := [] }

def demoTeamB : Team := { id := "t2", name := "B", players := [] }

def gT1 : GState :=
  { initGState with league :=
    { initGState.league with numTeams := 2, numPlayersPerTeam := 0 } }

def gT2 : GState :=
  { gT1 with league := startTheGames gT1.league [demoTeamA, demoTeamB] }

def gT3 : GState :=
  { gT2 with league := handleScoreChange gT2.league 0 Side.one (some 2) }

def gT4 : GState :=
  { gT3 with league := handleScoreChange gT3.league 0 Side.two (some 1) }

def gT5 : GState := { gT4 with league := (saveOutAt gT4 0).1 }

def gT6 : GState := { gT5 with league := handleEditResult gT5.league 0 }

def gT7 : GState :=
  { gT6 with league := handleScoreChange gT6.league 0 Side.one (some 1) }

def gT8 : GState :=
  { gT7 with store :=
    (handleSaveLeagueConfirm gT7.store gT7.league "L" true).getD [] }

def gT9 : GState := { gT8 with league := resetState }

def gT10 : GState :=
  { gT9 with league := handleLoadLeague gT9.store gT9.league "L" }

/-- A stats row used in concrete witnesses. -/
def demoStat : TeamStat :=
  { name := "A"
    played := 1
    wins := 1
    draws := 0
    losses := 0
    gf := 2
    ga := 1
    gd := 1
    points := 3 }

/-- A fresh result record between the demo teams. -/
def demoBlankMatch : MatchResult :=
  { team1Id := "t1"
    team2Id := "t2"
    team1Score := none
    team2Score := none
    team1GoalScorers := []
    team2GoalScorers := []
    saved := false
    goalScorerMismatch := false
    isEditing := false
    originalScores := none
    originalGoalScorers := none }

/-- A 1-0 result with no scorers listed: a mismatch whenever rosters are
non-empty. -/
def demoMismatchMatch : MatchResult :=
  { demoBlankMatch with team1Score := some 1, team2Score := some 0 }

/-- A state holding only the mismatching result, with one player per team. -/
def demoMismatchState : LeagueState :=
  { resetState with
    numPlayersPerTeam := 1
    matchResults := [demoMismatchMatch] }

/-- A player used to exercise the goal-scorer selection. -/
def demoPlayer : Player := { id := "p1", name := "Ali" }

/-- Team A with one roster player. -/
def demoTeamA1 : Team := { id := "t1", name := "A", players := [demoPlayer] }

/-- A state with a blank first result and team A's roster submitted. -/
def demoSelectState : LeagueState :=
  { resetState with
    numPlayersPerTeam := 1
    submittedTeamData := [demoTeamA1, demoTeamB]
    matchResults := [demoBlankMatch] }

/-- The A-B fixture saved as 2-1. -/
def demoSavedMatch : MatchResult :=
  { demoBlankMatch with
    team1Score := some 2
    team2Score := some 1
    saved := true }

/-- Zeroed standings for the demo teams. -/
def demoZeroStats : List TeamStat :=
  [{ name := "A", played := 0, wins := 0, draws := 0, losses := 0, gf := 0,
     ga := 0, gd := 0, points := 0 },
   { name := "B", played := 0, wins := 0, draws := 0, losses := 0, gf := 0,
     ga := 0, gd := 0, points := 0 }]

/-- A league whose only fixture is saved as 2-1, standings carrying exactly
that contribution. -/
def demoEditState : LeagueState :=
  { resetState with
    submittedTeamData := [demoTeamA, demoTeamB]
    matchesList := [("A", "B")]
    matchResults := [demoSavedMatch]
    teamStats := applyMatchStatsToTeams demoZeroStats demoSavedMatch
      [demoTeamA, demoTeamB] 1
    roundNumber := 1 }

/-- A 2-1 result whose goals are attributed: Ali twice for team `t1`, Reza
once for team `t2`. -/
def demoScorerMatch : MatchResult :=
  { demoBlankMatch with
    team1Score := some 2
    team2Score := some 1
    team1GoalScorers := [{ playerId := "p1", playerName := "Ali", goals := 2 }]
    team2GoalScorers := [{ playerId := "p2", playerName := "Reza", goals := 1 }]
    saved := true }

section UpdateAtLemmas

variable {α : Type}

theorem length_updateAt (l : List α) (k : Nat) (f : α → α) :
    (updateAt l k f).length = l.length := by
  induction l generalizing k with
  | nil => rfl
  | cons x xs ih =>
    cases k with
    | zero => rfl
    | succ k => simpa [updateAt] using ih k

theorem getElem?_updateAt_self (l : List α) (k : Nat) (f : α → α) :
    (updateAt l k f)[k]? = l[k]?.map f := by
  induction l generalizing k with
  | nil => rfl
  | cons x xs ih =>
    cases k with
    | zero => simp [updateAt]
    | succ k => simpa [updateAt] using ih k

theorem getElem?_updateAt_of_ne (l : List α) {k j : Nat} (h : j ≠ k)
    (f : α → α) : (updateAt l k f)[j]? = l[j]? := by
  induction l generalizing k j with
  | nil => rfl
  | cons x xs ih =>
    cases k with
    | zero =>
      cases j with
      | zero => exact absurd rfl h
      | succ j => simp [updateAt]
    | succ k =>
      cases j with
      | zero => simp [updateAt]
      | succ j =>
        simp only [updateAt, List.getElem?_cons_succ]
        exact ih (fun hh => h (by omega))

theorem updateAt_updateAt (l : List α) (k : Nat) (f g : α → α) :
    updateAt (updateAt l k f) k g = updateAt l k fun x => g (f x) := by
  induction l generalizing k with
  | nil => rfl
  | cons x xs ih =>
    cases k with
    | zero => rfl
    | succ k => simpa [updateAt] using ih k

theorem updateAt_comm (l : List α) {k j : Nat} (h : k ≠ j) (f g : α → α) :
    updateAt (updateAt l k f) j g = updateAt (updateAt l j g) k f := by
  induction l generalizing k j with
  | nil => rfl
  | cons x xs ih =>
    cases k with
    | zero =>
      cases j with
      | zero => exact absurd rfl h
      | succ j => rfl
    | succ k =>
      cases j with
      | zero => rfl
      | succ j =>
        simp only [updateAt, List.cons.injEq, true_and]
        exact ih (fun hh => h (by omega))

theorem updateAt_eq_self (l : List α) (k : Nat) (f : α → α)
    (h : ∀ x ∈ l, f x = x) : updateAt l k f = l := by
  induction l generalizing k with
  | nil => rfl
  | cons x xs ih =>
    cases k with
    | zero => simp [updateAt, h x (by simp)]
    | succ k =>
      simp only [updateAt, List.cons.injEq, true_and]
      exact ih k fun y hy => h y (by simp [hy])

theorem map_updateAt {β : Type} (l : List α) (k : Nat) (f : α → α)
    (π : α → β) (h : ∀ x, π (f x) = π x) :
    (updateAt l k f).map π = l.map π := by
  induction l generalizing k with
  | nil => rfl
  | cons x xs ih =>
    cases k with
    | zero => simp [updateAt, h x]
    | succ k => simp [updateAt, ih k]

theorem mem_updateAt {l : List α} {k : Nat} {f : α → α} {x : α}
    (h : x ∈ updateAt l k f) : x ∈ l ∨ ∃ y, l[k]? = some y ∧ x = f y := by
  induction l generalizing k with
  | nil => simp [updateAt] at h
  | cons a as ih =>
    cases k with
    | zero =>
      rcases List.mem_cons.1 h with h | h
      · exact Or.inr ⟨a, by simp, h⟩
      · exact Or.inl (List.mem_cons_of_mem _ h)
    | succ k =>
      rcases List.mem_cons.1 h with h | h
      · exact Or.inl (h ▸ List.mem_cons_self _ _)
      · rcases ih h with h' | ⟨y, hy, hxy⟩
        · exact Or.inl (List.mem_cons_of_mem _ h')
        · exact Or.inr ⟨y, by simpa using hy, hxy⟩

theorem forall_mem_updateAt {l : List α} {k : Nat} {f : α → α}
    {P : α → Prop} (hl : ∀ x ∈ l, P x) (hf : ∀ x ∈ l, P (f x)) :
    ∀ x ∈ updateAt l k f, P x := by
  intro x hx
  rcases mem_updateAt hx with h | ⟨y, hy, rfl⟩
  · exact hl x h
  · exact hf y (by
      rcases List.getElem?_eq_some_iff.1 hy with ⟨hlt, rfl⟩
      exact List.getElem_mem hlt)

end UpdateAtLemmas

section StatLemmas

theorem updateStatEntry_name (t : TeamStat) (c o mult : Int) :
    (updateStatEntry t c o mult).name = t.name := by
  simp only [updateStatEntry]
  split_ifs <;> rfl

theorem updateStatEntry_gd (t : TeamStat) (c o mult : Int) :
    (updateStatEntry t c o mult).gd =
      (updateStatEntry t c o mult).gf - (updateStatEntry t c o mult).ga := by
  simp only [updateStatEntry]

/-- Adding and then reverting the same line restores a row that satisfied
the goal-difference equation. -/
theorem updateStatEntry_cancel (t : TeamStat) (c o : Int)
    (h : t.gd = t.gf - t.ga) :
    updateStatEntry (updateStatEntry t c o 1) c o (-1) = t := by
  obtain ⟨nm, pl, w, d, lo, gf, ga, gd, pts⟩ := t
  simp only [updateStatEntry]
  split_ifs <;> simp_all [TeamStat.mk.injEq]

/-- Both-rows-coincide variant: adding both lines of a match to the same row
and then reverting both restores the row. -/
theorem updateStatEntry_cancel2 (t : TeamStat) (s1 s2 : Int)
    (h : t.gd = t.gf - t.ga) :
    updateStatEntry (updateStatEntry (updateStatEntry
      (updateStatEntry t s1 s2 1) s2 s1 1) s1 s2 (-1)) s2 s1 (-1) = t := by
  obtain ⟨nm, pl, w, d, lo, gf, ga, gd, pts⟩ := t
  simp only [updateStatEntry]
  split_ifs <;> simp_all [TeamStat.mk.injEq] <;> try omega

theorem findIdx?_eq_of_map_name_eq {l₁ l₂ : List TeamStat}
    (h : l₁.map (·.name) = l₂.map (·.name)) (n : String) :
    (l₁.findIdx? fun t => t.name == n) = l₂.findIdx? fun t => t.name == n := by
  have e₁ := @List.findIdx?_map TeamStat String (fun s => s == n)
    (fun x => x.name) l₁
  have e₂ := @List.findIdx?_map TeamStat String (fun s => s == n)
    (fun x => x.name) l₂
  simp only [Function.comp_def] at e₁ e₂
  rw [← e₁, ← e₂, h]

theorem map_name_applyScores (stats : List TeamStat) (n1 n2 : String)
    (s1 s2 mult : Int) :
    (applyScores stats n1 n2 s1 s2 mult).map (·.name) = stats.map (·.name) := by
  unfold applyScores
  cases h1 : stats.findIdx? fun t => t.name == n1 <;>
    cases h2 : stats.findIdx? fun t => t.name == n2 <;>
      simp [map_updateAt _ _ _ _ fun x => updateStatEntry_name x _ _ _]

theorem applyScores_swap_idx (stats : List TeamStat) (n1 n2 : String)
    (s1 s2 mult : Int) {S : List TeamStat}
    (hmap : S.map (·.name) = stats.map (·.name)) :
    applyScores S n1 n2 s1 s2 mult =
      match stats.findIdx? fun t => t.name == n1,
          stats.findIdx? fun t => t.name == n2 with
      | some k1, some k2 =>
        updateAt (updateAt S k1 fun t => updateStatEntry t s1 s2 mult)
          k2 fun t => updateStatEntry t s2 s1 mult
      | some k1, none =>
        updateAt S k1 fun t => updateStatEntry t s1 s2 mult
      | none, some k2 =>
        updateAt S k2 fun t => updateStatEntry t s2 s1 mult
      | none, none => S := by
  unfold applyScores
  rw [findIdx?_eq_of_map_name_eq hmap n1, findIdx?_eq_of_map_name_eq hmap n2]

theorem map_name_applyMatchStats (stats : List TeamStat) (m : MatchResult)
    (teams : List Team) (mult : Int) :
    (applyMatchStatsToTeams stats m teams mult).map (·.name) =
      stats.map (·.name) := by
  unfold applyMatchStatsToTeams
  cases m.team1Score <;> cases m.team2Score <;> try rfl
  cases teams.find? fun t => t.id == m.team1Id <;>
    cases teams.find? fun t => t.id == m.team2Id <;>
      simp [map_name_applyScores]

/-- Core cancellation: applying a match's two lines and then reverting them
restores any stats table whose rows satisfy the goal-difference equation. -/
theorem applyScores_cancel (stats : List TeamStat) (n1 n2 : String)
    (s1 s2 : Int) (hgd : ∀ t ∈ stats, t.gd = t.gf - t.ga) :
    applyScores (applyScores stats n1 n2 s1 s2 1) n1 n2 s1 s2 (-1) = stats := by
  rw [applyScores_swap_idx stats n1 n2 s1 s2 (-1)
    (map_name_applyScores stats n1 n2 s1 s2 1)]
  unfold applyScores
  cases h1 : stats.findIdx? fun t => t.name == n1 with
  | none =>
    cases h2 : stats.findIdx? fun t => t.name == n2 with
    | none => rfl
    | some k2 =>
      simp only [updateAt_updateAt]
      exact updateAt_eq_self _ _ _ fun x hx =>
        updateStatEntry_cancel x s2 s1 (hgd x hx)
  | some k1 =>
    cases h2 : stats.findIdx? fun t => t.name == n2 with
    | none =>
      simp only [updateAt_updateAt]
      exact updateAt_eq_self _ _ _ fun x hx =>
        updateStatEntry_cancel x s1 s2 (hgd x hx)
    | some k2 =>
      simp only []
      by_cases hk : k1 = k2
      · subst hk
        simp only [updateAt_updateAt]
        exact updateAt_eq_self _ _ _ fun x hx =>
          updateStatEntry_cancel2 x s1 s2 (hgd x hx)
      · rw [updateAt_comm _ (fun h => hk h.symm)
            (fun t => updateStatEntry t s2 s1 1)
            (fun t => updateStatEntry t s1 s2 (-1))]
        simp only [updateAt_updateAt]
        rw [updateAt_eq_self _ _ _ (fun x hx =>
            updateStatEntry_cancel x s1 s2 (hgd x hx)),
          updateAt_eq_self _ _ _ (fun x hx =>
            updateStatEntry_cancel x s2 s1 (hgd x hx))]

/-- `applyMatchStatsToTeams` reads only the two team ids and the two scores
of the match record. -/
theorem applyMatchStats_congr (stats : List TeamStat) (m m' : MatchResult)
    (teams : List Team) (mult : Int)
    (h1 : m'.team1Id = m.team1Id) (h2 : m'.team2Id = m.team2Id)
    (hs1 : m'.team1Score = m.team1Score) (hs2 : m'.team2Score = m.team2Score) :
    applyMatchStatsToTeams stats m' teams mult =
      applyMatchStatsToTeams stats m teams mult := by
  unfold applyMatchStatsToTeams
  rw [h1, h2, hs1, hs2]

/-- Cancellation for the full stats update: applying a match and then
reverting a record with the same ids and scores restores the table. -/
theorem applyMatchStats_cancel (stats : List TeamStat) (m m' : MatchResult)
    (teams : List Team) (hgd : ∀ t ∈ stats, t.gd = t.gf - t.ga)
    (h1 : m'.team1Id = m.team1Id) (h2 : m'.team2Id = m.team2Id)
    (hs1 : m'.team1Score = m.team1Score) (hs2 : m'.team2Score = m.team2Score) :
    applyMatchStatsToTeams (applyMatchStatsToTeams stats m teams 1) m' teams
      (-1) = stats := by
  rw [applyMatchStats_congr _ m m' _ _ h1 h2 hs1 hs2]
  unfold applyMatchStatsToTeams
  cases hA : m.team1Score with
  | none => rfl
  | some s1 =>
    cases hB : m.team2Score with
    | none => rfl
    | some s2 =>
      cases teams.find? fun t => t.id == m.team1Id with
      | none => rfl
      | some t1 =>
        cases teams.find? fun t => t.id == m.team2Id with
        | none => rfl
        | some t2 => exact applyScores_cancel stats t1.name t2.name s1 s2 hgd

/-- Every row of an updated stats table satisfies the goal-difference
equation provided every input row did. -/
theorem gd_invariant_applyScores (stats : List TeamStat) (n1 n2 : String)
    (s1 s2 mult : Int) (hgd : ∀ t ∈ stats, t.gd = t.gf - t.ga) :
    ∀ t ∈ applyScores stats n1 n2 s1 s2 mult, t.gd = t.gf - t.ga := by
  unfold applyScores
  cases h1 : stats.findIdx? fun t => t.name == n1 <;>
    cases h2 : stats.findIdx? fun t => t.name == n2
  · exact hgd
  · exact forall_mem_updateAt hgd fun x _ => updateStatEntry_gd ..
  · exact forall_mem_updateAt hgd fun x _ => updateStatEntry_gd ..
  · exact forall_mem_updateAt
      (forall_mem_updateAt hgd fun x _ => updateStatEntry_gd ..)
      fun x _ => updateStatEntry_gd ..

theorem gd_invariant_applyMatchStats (stats : List TeamStat) (m : MatchResult)
    (teams : List Team) (mult : Int)
    (hgd : ∀ t ∈ stats, t.gd = t.gf - t.ga) :
    ∀ t ∈ applyMatchStatsToTeams stats m teams mult, t.gd = t.gf - t.ga := by
  unfold applyMatchStatsToTeams
  cases m.team1Score <;> cases m.team2Score <;> try exact hgd
  cases teams.find? fun t => t.id == m.team1Id <;>
    cases teams.find? fun t => t.id == m.team2Id <;> try exact hgd
  exact gd_invariant_applyScores stats _ _ _ _ _ hgd

end StatLemmas

theorem mem_of_getElem?_eq_some {α : Type} {l : List α} {k : Nat} {x : α}
    (h : l[k]? = some x) : x ∈ l := by
  rcases List.getElem?_eq_some_iff.1 h with ⟨hlt, rfl⟩
  exact List.getElem_mem hlt

/-- Claim C10: `applyMatchStatsToTeams` is total and guarded — with an unset
score, or an unresolvable team id on either side, it returns the stats table
unchanged instead of failing or partially updating. -/
theorem applyMatchStats_total_guarded (stats : List TeamStat)
    (m : MatchResult) (teams : List Team) (mult : Int) :
    ((m.team1Score = none ∨ m.team2Score = none) →
      applyMatchStatsToTeams stats m teams mult = stats) ∧
    ((teams.find? fun t => t.id == m.team1Id) = none →
      applyMatchStatsToTeams stats m teams mult = stats) ∧
    ((teams.find? fun t => t.id == m.team2Id) = none →
      applyMatchStatsToTeams stats m teams mult = stats) := by
  refine ⟨fun h => ?_, fun h => ?_, fun h => ?_⟩
  · unfold applyMatchStatsToTeams
    rcases h with h | h <;> rw [h] <;> cases m.team1Score <;>
      cases m.team2Score <;> rfl
  · unfold applyMatchStatsToTeams
    cases m.team1Score <;> cases m.team2Score <;> try rfl
    rw [h]
  · unfold applyMatchStatsToTeams
    cases m.team1Score <;> cases m.team2Score <;> try rfl
    rw [h]
    cases teams.find? fun t => t.id == m.team1Id <;> rfl

theorem applyMatchStats_total_guarded_witness :
    applyMatchStatsToTeams [demoStat]
      { demoBlankMatch with team2Score := some 1 }
      [demoTeamA, demoTeamB] 1 = [demoStat] :=
  (applyMatchStats_total_guarded _ _ _ _).1 (Or.inl rfl)

/-- Claim C1: when both scores are set, the roster size is positive, and the
per-side scorer-tally sums do not both equal the corresponding scores,
`handleSaveResult` rejects: the only mutation is the mismatch flag on the
attempted match (its `saved` flag in particular is unchanged); the stats
table, the played-pairs set, and every other match record are untouched. -/
theorem save_mismatch_rejects_without_mutation (s : LeagueState) (i : Nat)
    (r : MatchResult) (a b : Int)
    (hr : s.matchResults[i]? = some r)
    (ha : r.team1Score = some a) (hb : r.team2Score = some b)
    (hnp : 0 < s.numPlayersPerTeam)
    (hmm : ¬((r.team1GoalScorers.map (·.goals)).sum = a ∧
      (r.team2GoalScorers.map (·.goals)).sum = b)) :
    handleSaveResult s i = some
      ({ s with matchResults := updateAt s.matchResults i setMismatchFlag },
        SaveStatus.mismatch) ∧
    (updateAt s.matchResults i setMismatchFlag)[i]? =
      some { r with goalScorerMismatch := true } ∧
    (setMismatchFlag r).saved = r.saved ∧
    (∀ j, j ≠ i →
      (updateAt s.matchResults i setMismatchFlag)[j]? =
        s.matchResults[j]?) := by
  have hmb : saveMismatch s.numPlayersPerTeam r a b = true := by
    unfold saveMismatch
    rw [if_pos hnp]
    rcases Decidable.not_and_iff_or_not.1 hmm with h | h <;>
      simp [bne_iff_ne, h]
  refine ⟨?_, ?_, rfl, ?_⟩
  · unfold handleSaveResult
    simp [hr, ha, hb, hmb]
  · rw [getElem?_updateAt_self, hr]
    rfl
  · intro j hj
    exact getElem?_updateAt_of_ne _ hj _

theorem save_mismatch_rejects_without_mutation_witness :
    (handleSaveResult demoMismatchState 0).map
        (fun p => (p.1.teamStats, p.1.allPlayedPairs, p.2)) =
      some ([], [], SaveStatus.mismatch) := by
  have h := save_mismatch_rejects_without_mutation demoMismatchState 0
    demoMismatchMatch 1 0 rfl rfl rfl (by decide) (by decide)
  rw [h.1]
  rfl

section Inversion

theorem handleSaveResult_inv {s : LeagueState} {i : Nat} {s' : LeagueState}
    {st : SaveStatus} (h : handleSaveResult s i = some (s', st)) :
    (s' = s ∧ st = SaveStatus.missingScore) ∨
    (s' = { s with matchResults := updateAt s.matchResults i setMismatchFlag }
      ∧ st = SaveStatus.mismatch) ∨
    (∃ r mp, s.matchResults[i]? = some r ∧ s.matchesList[i]? = some mp ∧
      s' = { s with
        teamStats := saveSuccessStats s r
        matchResults := updateAt s.matchResults i markSaved
        allPlayedPairs := setAdd s.allPlayedPairs (normalizePair mp.1 mp.2) }
      ∧ st = SaveStatus.success) := by
  unfold handleSaveResult at h
  rcases hrm : s.matchResults[i]? with _ | r
  · rw [hrm] at h
    exact absurd h (by simp)
  · simp only [hrm] at h
    rcases ha : r.team1Score with _ | a <;> rcases hb : r.team2Score with _ | b <;>
      simp only [ha, hb] at h
    · obtain ⟨h1, h2⟩ := Prod.mk.injEq .. ▸ Option.some.inj h
      exact Or.inl ⟨h1.symm, h2.symm⟩
    · obtain ⟨h1, h2⟩ := Prod.mk.injEq .. ▸ Option.some.inj h
      exact Or.inl ⟨h1.symm, h2.symm⟩
    · obtain ⟨h1, h2⟩ := Prod.mk.injEq .. ▸ Option.some.inj h
      exact Or.inl ⟨h1.symm, h2.symm⟩
    · by_cases hmis : saveMismatch s.numPlayersPerTeam r a b = true
      · rw [if_pos hmis] at h
        obtain ⟨h1, h2⟩ := Prod.mk.injEq .. ▸ Option.some.inj h
        exact Or.inr (Or.inl ⟨h1.symm, h2.symm⟩)
      · rw [if_neg hmis] at h
        rcases hmp : s.matchesList[i]? with _ | mp
        · rw [hmp] at h
          exact absurd h (by simp)
        · rw [hmp] at h
          obtain ⟨h1, h2⟩ := Prod.mk.injEq .. ▸ Option.some.inj h
          exact Or.inr (Or.inr ⟨r, mp, rfl, rfl, h1.symm, h2.symm⟩)

theorem handleSaveLeagueConfirm_inv {store : Store} {s : LeagueState}
    {inputName : String} {ow : Bool} {store' : Store}
    (h : handleSaveLeagueConfirm store s inputName ow = some store') :
    store' = upsert store (strTrim inputName) (saveState s) := by
  unfold handleSaveLeagueConfirm at h
  simp only [] at h
  split_ifs at h
  exact (Option.some.inj h).symm

theorem mem_upsert {store : Store} {n : String} {v : SavedLeagueState}
    {p : String × SavedLeagueState} (h : p ∈ upsert store n v) :
    p ∈ store ∨ p = (n, v) := by
  induction store with
  | nil => exact Or.inr (by simpa [upsert] using h)
  | cons q rest ih =>
    unfold upsert at h
    split_ifs at h
    · rcases List.mem_cons.1 h with h | h
      · exact Or.inr h
      · exact Or.inl (List.mem_cons_of_mem _ h)
    · rcases List.mem_cons.1 h with h | h
      · exact Or.inl (h ▸ List.mem_cons_self _ _)
      · rcases ih h with h | h
        · exact Or.inl (List.mem_cons_of_mem _ h)
        · exact Or.inr h

theorem lookupStore_mem {store : Store} {n : String} {v : SavedLeagueState}
    (h : lookupStore store n = some v) : ∃ k, (k, v) ∈ store := by
  unfold lookupStore at h
  rcases hf : store.find? fun p => p.1 == n with _ | p
  · rw [hf] at h
    exact absurd h (by simp)
  · rw [hf] at h
    refine ⟨p.1, ?_⟩
    have hp := List.mem_of_find?_eq_some hf
    have : p.2 = v := Option.some.inj h
    rwa [← this, Prod.mk.eta]

theorem mem_eraseStore {store : Store} {n : String}
    {p : String × SavedLeagueState} (h : p ∈ eraseStore store n) :
    p ∈ store :=
  (List.mem_filter.1 h).1

theorem mem_gen_matchResults {teams : List Team} {m : MatchResult}
    (hm : m ∈ (generateAllRoundRobinMatches teams).2) :
    m.team1Score = none ∧ m.team2Score = none ∧
    m.team1GoalScorers = [] ∧ m.team2GoalScorers = [] ∧
    m.saved = false ∧ m.goalScorerMismatch = false ∧ m.isEditing = false ∧
    m.originalScores = none ∧ m.originalGoalScorers = none := by
  simp only [generateAllRoundRobinMatches] at hm
  split_ifs at hm
  · simp at hm
  · obtain ⟨mp, _, rfl⟩ := List.mem_map.1 hm
    exact ⟨rfl, rfl, rfl, rfl, rfl, rfl, rfl, rfl, rfl⟩

theorem startTheGames_flags {s : LeagueState} {teams : List Team} :
    ∀ m ∈ (startTheGames s teams).matchResults,
      m.isEditing = false ∧ m.saved = false := by
  intro m hm
  simp only [startTheGames] at hm
  split_ifs at hm
  · simp at hm
  · have h := mem_gen_matchResults hm
    exact ⟨h.2.2.2.2.2.2.1, h.2.2.2.2.1⟩

theorem startTheGames_gdOk {s : LeagueState} {teams : List Team}
    (hs : ∀ t ∈ s.teamStats, t.gd = t.gf - t.ga) :
    ∀ t ∈ (startTheGames s teams).teamStats, t.gd = t.gf - t.ga := by
  intro t ht
  simp only [startTheGames] at ht
  split_ifs at ht
  · exact hs t ht
  · obtain ⟨team, _, rfl⟩ := List.mem_map.1 ht
    rfl

theorem gdOk_saveSuccessStats {s : LeagueState} {r : MatchResult}
    (hs : ∀ t ∈ s.teamStats, t.gd = t.gf - t.ga) :
    ∀ t ∈ saveSuccessStats s r, t.gd = t.gf - t.ga := by
  unfold saveSuccessStats
  rcases r.saved with _ | _ <;> rcases r.isEditing with _ | _ <;>
    rcases r.originalScores with _ | os <;>
      exact gd_invariant_applyMatchStats _ _ _ _
        (by first
          | exact hs
          | exact gd_invariant_applyMatchStats _ _ _ _ hs)

end Inversion

section Invariants

/-- In every reachable state, a match record that is being edited is a saved
record: the edit button is only rendered on saved results, saving leaves
editing, cancelling leaves editing, and both league generation and league
load produce records with `isEditing = false`. -/
theorem reachable_editing_saved {g : GState} (h : Reachable g) :
    ∀ m ∈ g.league.matchResults, m.isEditing = true → m.saved = true := by
  induction h with
  | init => intro m hm; simp [initGState, resetState] at hm
  | @step g1 g2 hr hs ih =>
    cases hs with
    | setupCounts nt np hstage => exact ih
    | startLeague teams hstage hcount =>
      intro m hm he
      have hf := (startTheGames_flags m hm).1
      rw [hf] at he
      exact Bool.noConfusion he
    | scoreChange i side v m0 hm0 hguard =>
      exact forall_mem_updateAt ih fun y hy => by cases side <;> exact ih y hy
    | playerGoalChange i side k v m0 hm0 hguard =>
      exact forall_mem_updateAt ih fun y hy => by cases side <;> exact ih y hy
    | selectScorer i side pid m0 hm0 hguard =>
      by_cases hpid : pid = ""
      · simp only [handleSelectGoalScorer, if_pos hpid]
        exact ih
      · simp only [handleSelectGoalScorer, if_neg hpid]
        refine forall_mem_updateAt ih fun y hy => ?_
        cases side <;> exact ih y hy
    | removeScorer i side pid m0 hm0 hguard =>
      exact forall_mem_updateAt ih fun y hy => by cases side <;> exact ih y hy
    | saveResult i s' st m0 hm0 hguard hrun =>
      rcases handleSaveResult_inv hrun with ⟨hs', _⟩ | ⟨hs', _⟩ |
        ⟨r, mp, hr, hmp, hs', _⟩ <;> subst hs'
      · exact ih
      · exact forall_mem_updateAt ih fun y hy => ih y hy
      · exact forall_mem_updateAt ih fun y hy he => Bool.noConfusion he
    | editResult i m0 hm0 hguard =>
      intro m hm
      rcases mem_updateAt hm with hmem | ⟨y, hy, rfl⟩
      · exact ih m hmem
      · intro _
        have hym : y = m0 := by rw [hm0] at hy; exact (Option.some.inj hy).symm
        subst hym
        exact hguard.1
    | cancelEdit i m0 hm0 hguard =>
      refine forall_mem_updateAt ih fun y hy => ?_
      revert hy
      cases y.originalScores <;> cases y.originalGoalScorers <;>
        exact fun _ he => Bool.noConfusion he
    | saveLeague inputName ow store' hactive hrun => exact ih
    | loadLeague leagueName hstage =>
      intro m hm he
      rcases hlk : lookupStore g1.store leagueName with _ | lg <;>
        simp only [handleLoadLeague, hlk] at hm
      · exact ih m hm he
      · obtain ⟨y, _, rfl⟩ := List.mem_map.1 hm
        exact Bool.noConfusion he
    | deleteLeague leagueName => exact ih
    | resetLeague => intro m hm; simp [resetState] at hm

/-- In every reachable state every standings row satisfies
`gd = gf - ga`, both in the live table and in every stored snapshot. -/
theorem reachable_gdOk {g : GState} (h : Reachable g) :
    (∀ t ∈ g.league.teamStats, t.gd = t.gf - t.ga) ∧
    (∀ p ∈ g.store, ∀ t ∈ p.2.teamStats, t.gd = t.gf - t.ga) := by
  induction h with
  | init =>
    exact ⟨by simp [initGState, resetState], by simp [initGState]⟩
  | @step g1 g2 hr hs ih =>
    cases hs with
    | setupCounts nt np hstage => exact ih
    | startLeague teams hstage hcount =>
      exact ⟨startTheGames_gdOk ih.1, ih.2⟩
    | scoreChange i side v m0 hm0 hguard => exact ih
    | playerGoalChange i side k v m0 hm0 hguard => exact ih
    | selectScorer i side pid m0 hm0 hguard =>
      refine ⟨?_, ih.2⟩
      by_cases hpid : pid = ""
      · simp only [handleSelectGoalScorer, if_pos hpid]
        exact ih.1
      · simp only [handleSelectGoalScorer, if_neg hpid]
        exact ih.1
    | removeScorer i side pid m0 hm0 hguard => exact ih
    | saveResult i s' st m0 hm0 hguard hrun =>
      refine ⟨?_, ih.2⟩
      rcases handleSaveResult_inv hrun with ⟨hs', _⟩ | ⟨hs', _⟩ |
        ⟨r, mp, hr, hmp, hs', _⟩ <;> subst hs'
      · exact ih.1
      · exact ih.1
      · exact gdOk_saveSuccessStats ih.1
    | editResult i m0 hm0 hguard => exact ih
    | cancelEdit i m0 hm0 hguard => exact ih
    | saveLeague inputName ow store' hactive hrun =>
      refine ⟨ih.1, ?_⟩
      have heq := handleSaveLeagueConfirm_inv hrun
      subst heq
      intro p hp
      rcases mem_upsert hp with hp' | rfl
      · exact ih.2 p hp'
      · exact ih.1
    | loadLeague leagueName hstage =>
      refine ⟨?_, ih.2⟩
      rcases hlk : lookupStore g1.store leagueName with _ | lg <;>
        simp only [handleLoadLeague, hlk]
      · exact ih.1
      · obtain ⟨k, hk⟩ := lookupStore_mem hlk
        exact ih.2 (k, lg) hk
    | deleteLeague leagueName =>
      exact ⟨ih.1, fun p hp => ih.2 p (mem_eraseStore hp)⟩
    | resetLeague => exact ⟨by simp [resetState], ih.2⟩

end Invariants

/-- Claim C8: in every reachable state, every team's goal-difference equals
its goals-for minus goals-against, and the statistics-updating operation
preserves this equation on every row. -/
theorem gd_equals_gf_sub_ga (g : GState) (hg : Reachable g) :
    (∀ t ∈ g.league.teamStats, t.gd = t.gf - t.ga) ∧
    (∀ stats m teams mult, (∀ t ∈ stats, t.gd = t.gf - t.ga) →
      ∀ t ∈ applyMatchStatsToTeams stats m teams mult, t.gd = t.gf - t.ga) :=
  ⟨(reachable_gdOk hg).1, gd_invariant_applyMatchStats⟩

/-- Claim C9: in every reachable state a match record with `isEditing = true`
is saved (edit is only allowed on a saved result), and entering edit mode
snapshots the current scores and scorer lists, sets `isEditing`, clears the
mismatch flag, and changes nothing else: scores and scorer lists of the
edited match are untouched, other matches and the stats table unchanged. -/
theorem edit_only_on_saved (g : GState) (hg : Reachable g) (s : LeagueState)
    (i : Nat) (m : MatchResult) (hm : s.matchResults[i]? = some m) :
    (∀ m' ∈ g.league.matchResults, m'.isEditing = true → m'.saved = true) ∧
    (handleEditResult s i).matchResults[i]? = some
      { m with
        isEditing := true
        originalScores := some (m.team1Score, m.team2Score)
        originalGoalScorers := some (m.team1GoalScorers, m.team2GoalScorers)
        goalScorerMismatch := false } ∧
    (∀ j, j ≠ i →
      (handleEditResult s i).matchResults[j]? = s.matchResults[j]?) ∧
    (handleEditResult s i).teamStats = s.teamStats :=
  ⟨reachable_editing_saved hg,
    by unfold handleEditResult
       rw [getElem?_updateAt_self, hm]
       rfl,
    fun j hj => getElem?_updateAt_of_ne _ hj _,
    rfl⟩

/-- The mid-edit league-save trace is reachable: start a two-team league,
save A-B as 2-1, edit it and type 1-1, save the league while the edit is
open, exit, and load it back. -/
theorem trace_reachable : Reachable gT10 := by
  have s1 : Step initGState gT1 := Step.setupCounts initGState 2 0 rfl
  have s2 : Step gT1 gT2 :=
    Step.startLeague gT1 [demoTeamA, demoTeamB] rfl rfl
  have s3 : Step gT2 gT3 :=
    Step.scoreChange gT2 0 Side.one (some 2) (resultAt gT2 0) (by decide)
      (Or.inl (by decide))
  have s4 : Step gT3 gT4 :=
    Step.scoreChange gT3 0 Side.two (some 1) (resultAt gT3 0) (by decide)
      (Or.inl (by decide))
  have s5 : Step gT4 gT5 :=
    Step.saveResult gT4 0 (saveOutAt gT4 0).1 (saveOutAt gT4 0).2
      (resultAt gT4 0) (by decide) (Or.inl (by decide)) (by decide)
  have s6 : Step gT5 gT6 :=
    Step.editResult gT5 0 (resultAt gT5 0) (by decide) (by decide)
  have s7 : Step gT6 gT7 :=
    Step.scoreChange gT6 0 Side.one (some 1) (resultAt gT6 0) (by decide)
      (Or.inr (by decide))
  have s8 : Step gT7 gT8 :=
    Step.saveLeague gT7 "L" true
      ((handleSaveLeagueConfirm gT7.store gT7.league "L" true).getD [])
      (by decide) (by decide)
  have s9 : Step gT8 gT9 := Step.resetLeague gT8
  have s10 : Step gT9 gT10 := Step.loadLeague gT9 "L" rfl
  exact .step (.step (.step (.step (.step (.step (.step (.step (.step
    (.step .init s1) s2) s3) s4) s5) s6) s7) s8) s9) s10

/-- Claim C2: editing a saved match and resaving with new scores that pass
validation yields exactly the standings of fresh application of the new
scores to a league in which the match had never been saved.  `base` is that
never-saved standings table; the current table carries the match's prior
contribution on top of it (`hstats`). -/
theorem edit_resave_equals_fresh_apply (s : LeagueState) (i : Nat)
    (m : MatchResult) (mp : String × String) (base : List TeamStat)
    (a b : Int)
    (hm : s.matchResults[i]? = some m)
    (hmp : s.matchesList[i]? = some mp)
    (hsaved : m.saved = true)
    (hstats : s.teamStats =
      applyMatchStatsToTeams base m s.submittedTeamData 1)
    (hgd : ∀ t ∈ base, t.gd = t.gf - t.ga)
    (hval : 0 < s.numPlayersPerTeam →
      (m.team1GoalScorers.map (·.goals)).sum = a ∧
      (m.team2GoalScorers.map (·.goals)).sum = b) :
    ((handleSaveResult
        (handleScoreChange
          (handleScoreChange (handleEditResult s i) i Side.one (some a)) i
          Side.two (some b)) i).map fun p => (p.1.teamStats, p.2)) =
      some (applyMatchStatsToTeams base
        { m with team1Score := some a, team2Score := some b }
        s.submittedTeamData 1, SaveStatus.success) := by
  have hm3 : (handleScoreChange
      (handleScoreChange (handleEditResult s i) i Side.one (some a)) i
      Side.two (some b)).matchResults[i]? = some
      { m with
        team1Score := some a
        team2Score := some b
        isEditing := true
        originalScores := some (m.team1Score, m.team2Score)
        originalGoalScorers := some (m.team1GoalScorers, m.team2GoalScorers)
        goalScorerMismatch := false } := by
    simp only [handleScoreChange, handleEditResult]
    rw [updateAt_updateAt, updateAt_updateAt, getElem?_updateAt_self, hm]
    rfl
  have hmis : saveMismatch s.numPlayersPerTeam
      { m with
        team1Score := some a
        team2Score := some b
        isEditing := true
        originalScores := some (m.team1Score, m.team2Score)
        originalGoalScorers := some (m.team1GoalScorers, m.team2GoalScorers)
        goalScorerMismatch := false } a b = false := by
    unfold saveMismatch
    by_cases hnp : 0 < s.numPlayersPerTeam
    · simp [hnp, (hval hnp).1, (hval hnp).2]
    · simp [hnp]
  unfold handleSaveResult
  rw [hm3]
  simp only [handleScoreChange, handleEditResult]
  rw [hmis]
  simp only [Bool.false_eq_true, if_false]
  rw [hmp]
  simp only [Option.map_some', Option.some.injEq, Prod.mk.injEq,
    eq_self_iff_true, and_true]
  unfold saveSuccessStats
  simp only [hsaved]
  rw [hstats]
  rw [applyMatchStats_cancel base m
      { team1Id := m.team1Id
        team2Id := m.team2Id
        team1Score := m.team1Score
        team2Score := m.team2Score
        team1GoalScorers := m.team1GoalScorers
        team2GoalScorers := m.team2GoalScorers
        saved := true
        goalScorerMismatch := false
        isEditing := true
        originalScores := some (m.team1Score, m.team2Score)
        originalGoalScorers := some (m.team1GoalScorers, m.team2GoalScorers) }
      s.submittedTeamData hgd rfl rfl rfl rfl]
  exact applyMatchStats_congr base
    { m with team1Score := some a, team2Score := some b }
    { team1Id := m.team1Id
      team2Id := m.team2Id
      team1Score := some a
      team2Score := some b
      team1GoalScorers := m.team1GoalScorers
      team2GoalScorers := m.team2GoalScorers
      saved := true
      goalScorerMismatch := false
      isEditing := true
      originalScores := some (m.team1Score, m.team2Score)
      originalGoalScorers := some (m.team1GoalScorers, m.team2GoalScorers) }
    s.submittedTeamData 1 rfl rfl rfl rfl

section PairsLemmas

variable {α β : Type}

theorem pairsAux_map (f : α → β) (l : List α) :
    pairsAux (l.map f) = (pairsAux l).map (Prod.map f f) := by
  induction l with
  | nil => rfl
  | cons x xs ih =>
    simp only [List.map_cons, pairsAux, ih, List.map_append, List.map_map]
    rfl

theorem pairsAux_length (l : List α) :
    (pairsAux l).length = l.length.choose 2 := by
  induction l with
  | nil => rfl
  | cons x xs ih =>
    simp only [pairsAux, List.length_append, List.length_map, ih,
      List.length_cons, Nat.choose_succ_succ, Nat.choose_one_right]

theorem pairsAux_mem {l : List α} {p : α × α} (h : p ∈ pairsAux l) :
    p.1 ∈ l ∧ p.2 ∈ l := by
  induction l with
  | nil => simp [pairsAux] at h
  | cons x xs ih =>
    rcases List.mem_append.1 h with h | h
    · obtain ⟨y, hy, rfl⟩ := List.mem_map.1 h
      exact ⟨List.mem_cons_self _ _, List.mem_cons_of_mem _ hy⟩
    · obtain ⟨h1, h2⟩ := ih h
      exact ⟨List.mem_cons_of_mem _ h1, List.mem_cons_of_mem _ h2⟩

theorem pairsAux_pairwise {R : α → α → Prop} {l : List α}
    (h : l.Pairwise R) :
    (pairsAux l).Pairwise fun p q => R p.1 q.1 ∨ (p.1 = q.1 ∧ R p.2 q.2) := by
  induction l with
  | nil => constructor
  | cons x xs ih =>
    obtain ⟨hx, hxs⟩ := List.pairwise_cons.1 h
    refine List.pairwise_append.2 ⟨?_, ih hxs, ?_⟩
    · exact List.pairwise_map.2 (hxs.imp fun hab => Or.inr ⟨rfl, hab⟩)
    · intro a ha b hb
      obtain ⟨y, hy, rfl⟩ := List.mem_map.1 ha
      exact Or.inl (hx b.1 (pairsAux_mem hb).1)

theorem filter_zero_lt_range (n : Nat) :
    ((List.range (n + 1)).filter fun j => 0 < j) =
      (List.range n).map Nat.succ := by
  rw [List.range_succ_eq_map, List.filter_cons]
  simp only [decide_eq_true_eq, Nat.lt_irrefl, if_false]
  rw [List.filter_map]
  have : ((List.range n).filter ((fun j => decide (0 < j)) ∘ Nat.succ)) =
      List.range n := by
    apply List.filter_eq_self.2
    intro a _
    simp
  simp [this]

theorem filter_succ_lt_range (i n : Nat) :
    ((List.range (n + 1)).filter fun j => i + 1 < j) =
      ((List.range n).filter fun j => i < j).map Nat.succ := by
  rw [List.range_succ_eq_map, List.filter_cons]
  simp only [decide_eq_true_eq]
  rw [if_neg (by omega), List.filter_map]
  congr 1
  apply List.filter_congr
  intro a _
  simp [Function.comp, Nat.succ_lt_succ_iff]

theorem pairsAux_range (n : Nat) :
    pairsAux (List.range n) = rrIdxPairs n := by
  induction n with
  | zero => rfl
  | succ n ih =>
    have hL : pairsAux (List.range (n + 1)) =
        ((List.range n).map fun j => (0, j + 1)) ++
          (rrIdxPairs n).map (Prod.map Nat.succ Nat.succ) := by
      rw [List.range_succ_eq_map]
      simp only [pairsAux]
      rw [pairsAux_map, ih, List.map_map]
      rfl
    have hR : rrIdxPairs (n + 1) =
        ((List.range n).map fun j => (0, j + 1)) ++
          (rrIdxPairs n).map (Prod.map Nat.succ Nat.succ) := by
      unfold rrIdxPairs
      nth_rewrite 1 [List.range_succ_eq_map]
      rw [List.flatMap_cons, List.flatMap_map]
      congr 1
      · rw [filter_zero_lt_range, List.map_map]
        rfl
      · rw [List.map_flatMap]
        congr 1
        funext a
        rw [filter_succ_lt_range, List.map_map, List.map_map]
        rfl
    rw [hL, hR]

end PairsLemmas

/-- Claim C3: the fixture generator.  With fewer than two teams it produces
empty fixture and result sets.  With `n ≥ 2` teams it produces the fixture
list indexed exactly by the pairs `(i, j)` with `i < j < n` in the
deterministic outer-`i`/inner-`j` loop order (strictly lexicographically
increasing, hence no duplicate unordered pair), `n·(n−1)/2` fixtures in
total, one result record per fixture, each initialized with unset scores,
empty scorer lists and `saved = false`. -/
theorem round_robin_generator_correct (teams : List Team) :
    (teams.length < 2 → generateAllRoundRobinMatches teams = ([], [])) ∧
    (2 ≤ teams.length →
      (generateAllRoundRobinMatches teams).1 =
        (rrIdxPairs teams.length).map fun p =>
          ((teams.map (·.name)).getD p.1 "",
            (teams.map (·.name)).getD p.2 "")) ∧
    (2 ≤ teams.length →
      (generateAllRoundRobinMatches teams).1.length =
        teams.length * (teams.length - 1) / 2) ∧
    (∀ i j, (i, j) ∈ rrIdxPairs teams.length ↔ i < j ∧ j < teams.length) ∧
    (rrIdxPairs teams.length).Pairwise
      (fun p q => p.1 < q.1 ∨ (p.1 = q.1 ∧ p.2 < q.2)) ∧
    (generateAllRoundRobinMatches teams).2.length =
      (generateAllRoundRobinMatches teams).1.length ∧
    (∀ m ∈ (generateAllRoundRobinMatches teams).2,
      m.team1Score = none ∧ m.team2Score = none ∧ m.team1GoalScorers = [] ∧
      m.team2GoalScorers = [] ∧ m.saved = false) := by
  have hlen : (teams.map (·.name)).length = teams.length := List.length_map ..
  have hmap : 2 ≤ teams.length →
      (generateAllRoundRobinMatches teams).1 =
        (rrIdxPairs teams.length).map fun p =>
          ((teams.map (·.name)).getD p.1 "",
            (teams.map (·.name)).getD p.2 "") := by
    intro h2
    unfold generateAllRoundRobinMatches
    rw [if_neg (by omega)]
    simp only [hlen]
    unfold rrIdxPairs
    rw [List.map_flatMap]
    congr 1
    funext i
    rw [List.map_map]
    rfl
  refine ⟨?_, hmap, ?_, ?_, ?_, ?_, fun m hm => ?_⟩
  · intro h2
    unfold generateAllRoundRobinMatches
    rw [if_pos (by omega)]
  · intro h2
    rw [hmap h2, List.length_map, ← pairsAux_range, pairsAux_length,
      List.length_range, Nat.choose_two_right]
  · intro i j
    simp only [rrIdxPairs, List.mem_flatMap, List.mem_map, List.mem_filter,
      List.mem_range, decide_eq_true_eq, Prod.mk.injEq]
    constructor
    · rintro ⟨a, ha, b, ⟨hb, hab⟩, rfl, rfl⟩
      exact ⟨hab, hb⟩
    · rintro ⟨hij, hj⟩
      exact ⟨i, by omega, j, ⟨hj, hij⟩, rfl, rfl⟩
  · rw [← pairsAux_range]
    exact pairsAux_pairwise (List.pairwise_lt_range _)
  · simp only [generateAllRoundRobinMatches]
    split_ifs
    · rfl
    · exact List.length_map ..
  · have h := mem_gen_matchResults hm
    exact ⟨h.1, h.2.1, h.2.2.1, h.2.2.2.1, h.2.2.2.2.1⟩

theorem round_robin_generator_correct_witness :
    generateAllRoundRobinMatches [demoTeamA] = ([], []) ∧
    (generateAllRoundRobinMatches [demoTeamA, demoTeamB, demoTeamA1]).1 =
      [("A", "B"), ("A", "A"), ("B", "A")] ∧
    (generateAllRoundRobinMatches [demoTeamA, demoTeamB, demoTeamA1]).1.length
      = 3 := by
  refine ⟨(round_robin_generator_correct [demoTeamA]).1 (by decide), ?_, ?_⟩
  · rw [(round_robin_generator_correct
      [demoTeamA, demoTeamB, demoTeamA1]).2.1 (by decide)]
    decide
  · rw [(round_robin_generator_correct
      [demoTeamA, demoTeamB, demoTeamA1]).2.2.1 (by decide)]
    decide

section RoundTrip

theorem lookup_upsert (store : Store) (n : String) (v : SavedLeagueState) :
    lookupStore (upsert store n v) n = some v := by
  induction store with
  | nil => simp [upsert, lookupStore]
  | cons q rest ih =>
    by_cases hq : q.1 = n
    · simp [upsert, hq, lookupStore]
    · simp only [upsert]
      rw [if_neg (by exact fun h => hq (by simp [h]))]
      unfold lookupStore at ih ⊢
      rw [List.find?_cons_of_neg _ (by simp [hq])]
      exact ih

theorem setAdd_nodup {l : List String} {x : String} (h : l.Nodup) :
    (setAdd l x).Nodup := by
  unfold setAdd
  split_ifs with hx
  · exact h
  · simp [List.nodup_append, h, hx]

theorem foldl_setAdd_nodup (l : List String) :
    ∀ acc : List String, acc.Nodup → (l.foldl setAdd acc).Nodup := by
  induction l with
  | nil => exact fun acc h => h
  | cons x xs ih => exact fun acc h => ih (setAdd acc x) (setAdd_nodup h)

theorem dedupFirst_nodup (l : List String) : (dedupFirst l).Nodup :=
  foldl_setAdd_nodup l [] List.nodup_nil

theorem foldl_setAdd_of_disjoint (l : List String) :
    ∀ acc : List String, l.Nodup → (∀ x ∈ l, x ∉ acc) →
      l.foldl setAdd acc = acc ++ l := by
  induction l with
  | nil => simp
  | cons x xs ih =>
    intro acc hnd hdisj
    have hx : x ∉ acc := hdisj x (List.mem_cons_self _ _)
    have h1 : setAdd acc x = acc ++ [x] := by simp [setAdd, hx]
    rw [List.foldl_cons, h1, ih (acc ++ [x]) (List.nodup_cons.1 hnd).2]
    · simp
    · intro y hy
      simp only [List.mem_append, List.mem_singleton]
      rintro (hy' | rfl)
      · exact hdisj y (List.mem_cons_of_mem _ hy) hy'
      · exact (List.nodup_cons.1 hnd).1 hy

theorem dedupFirst_eq_self {l : List String} (h : l.Nodup) :
    dedupFirst l = l := by
  unfold dedupFirst
  rw [foldl_setAdd_of_disjoint l [] h (by simp)]
  simp

/-- In every reachable state the played-pairs set holds no duplicates. -/
theorem reachable_pairs_nodup {g : GState} (h : Reachable g) :
    g.league.allPlayedPairs.Nodup := by
  induction h with
  | init => simp [initGState, resetState]
  | @step g1 g2 hr hs ih =>
    cases hs with
    | setupCounts nt np hstage => exact ih
    | startLeague teams hstage hcount =>
      simp only [startTheGames]
      split_ifs
      · exact ih
      · simp
    | scoreChange i side v m0 hm0 hguard => exact ih
    | playerGoalChange i side k v m0 hm0 hguard => exact ih
    | selectScorer i side pid m0 hm0 hguard =>
      by_cases hpid : pid = ""
      · simp only [handleSelectGoalScorer, if_pos hpid]
        exact ih
      · simp only [handleSelectGoalScorer, if_neg hpid]
        exact ih
    | removeScorer i side pid m0 hm0 hguard => exact ih
    | saveResult i s' st m0 hm0 hguard hrun =>
      rcases handleSaveResult_inv hrun with ⟨hs', _⟩ | ⟨hs', _⟩ |
        ⟨r, mp, hr, hmp, hs', _⟩ <;> subst hs'
      · exact ih
      · exact ih
      · exact setAdd_nodup ih
    | editResult i m0 hm0 hguard => exact ih
    | cancelEdit i m0 hm0 hguard => exact ih
    | saveLeague inputName ow store' hactive hrun => exact ih
    | loadLeague leagueName hstage =>
      rcases hlk : lookupStore g1.store leagueName with _ | lg <;>
        simp only [handleLoadLeague, hlk]
      · exact ih
      · exact dedupFirst_nodup _
    | deleteLeague leagueName => exact ih
    | resetLeague => simp [resetState]

end RoundTrip

/-- Claim C4: saving a league and loading it back restores the live state
field for field — team data, match results, standings, the played-pairs
set, both counts, and the id counter — except that the transient editing
fields (`isEditing` and the two snapshots) are cleared; and the played-pairs
set of any reachable state is duplicate-free, so its round trip through the
serialized array is exact. -/
theorem save_load_round_trip (store : Store) (s s₂ : LeagueState)
    (inputName : String) (store' : Store)
    (hsave : handleSaveLeagueConfirm store s inputName true = some store')
    (hnd : s.allPlayedPairs.Nodup) :
    ((fun l => (l.numTeams, l.numPlayersPerTeam, l.submittedTeamData,
        l.matchResults, l.teamStats, l.allPlayedPairs, l.roundNumber,
        l.idCounter))
      (handleLoadLeague store' s₂ (strTrim inputName)) =
      (s.numTeams, s.numPlayersPerTeam, s.submittedTeamData,
        s.matchResults.map clearEditing, s.teamStats, s.allPlayedPairs,
        s.roundNumber, s.idCounter)) ∧
    (∀ g : GState, Reachable g → g.league.allPlayedPairs.Nodup) := by
  refine ⟨?_, fun g hg => reachable_pairs_nodup hg⟩
  have hst := handleSaveLeagueConfirm_inv hsave
  subst hst
  unfold handleLoadLeague
  rw [lookup_upsert]
  simp [saveState, Prod.mk.injEq, List.map_map, dedupFirst_eq_self hnd,
    show clearEditing ∘ clearEditing = clearEditing from funext fun m => rfl]

theorem save_load_round_trip_witness :
    ((fun l => (l.numTeams, l.numPlayersPerTeam, l.submittedTeamData,
        l.matchResults, l.teamStats, l.allPlayedPairs, l.roundNumber,
        l.idCounter))
      (handleLoadLeague (upsert [] "L" (saveState demoEditState)) resetState
        (strTrim "L")) =
      (demoEditState.numTeams, demoEditState.numPlayersPerTeam,
        demoEditState.submittedTeamData,
        demoEditState.matchResults.map clearEditing, demoEditState.teamStats,
        demoEditState.allPlayedPairs, demoEditState.roundNumber,
        demoEditState.idCounter)) :=
  (save_load_round_trip [] demoEditState resetState "L"
    (upsert [] "L" (saveState demoEditState)) (by decide) (by decide)).1

theorem edit_resave_equals_fresh_apply_witness :
    ((handleSaveResult
        (handleScoreChange
          (handleScoreChange (handleEditResult demoEditState 0) 0 Side.one
            (some 1)) 0 Side.two (some 1)) 0).map
        fun p => (p.1.teamStats, p.2)) =
      some (applyMatchStatsToTeams demoZeroStats
        { demoSavedMatch with team1Score := some 1, team2Score := some 1 }
        [demoTeamA, demoTeamB] 1, SaveStatus.success) :=
  edit_resave_equals_fresh_apply demoEditState 0 demoSavedMatch ("A", "B")
    demoZeroStats 1 1 rfl rfl rfl rfl (by decide) (by decide)

section TopScorers

theorem insertByGoals_mem {x y : ScorerAgg} {l : List ScorerAgg} :
    y ∈ insertByGoals x l ↔ y = x ∨ y ∈ l := by
  induction l with
  | nil => simp [insertByGoals]
  | cons z zs ih =>
    unfold insertByGoals
    split_ifs
    · rw [List.mem_cons, ih, List.mem_cons]
      tauto
    · simp only [List.mem_cons]

theorem sortScorersDesc_mem {l : List ScorerAgg} {y : ScorerAgg} :
    y ∈ sortScorersDesc l ↔ y ∈ l := by
  induction l with
  | nil => simp [sortScorersDesc]
  | cons x xs ih =>
    show y ∈ insertByGoals x (sortScorersDesc xs) ↔ _
    rw [insertByGoals_mem, ih, List.mem_cons]

theorem insertByGoals_pairwise {x : ScorerAgg} {l : List ScorerAgg}
    (h : l.Pairwise fun e1 e2 => e2.goals ≤ e1.goals) :
    (insertByGoals x l).Pairwise fun e1 e2 => e2.goals ≤ e1.goals := by
  induction l with
  | nil => simp [insertByGoals]
  | cons z zs ih =>
    obtain ⟨hz, hzs⟩ := List.pairwise_cons.1 h
    unfold insertByGoals
    split_ifs with hlt
    · refine List.pairwise_cons.2 ⟨?_, ih hzs⟩
      intro w hw
      rcases insertByGoals_mem.1 hw with rfl | hw'
      · omega
      · exact hz w hw'
    · refine List.pairwise_cons.2 ⟨?_, h⟩
      intro w hw
      rcases List.mem_cons.1 hw with rfl | hw'
      · omega
      · have := hz w hw'
        omega

theorem sortScorersDesc_pairwise (l : List ScorerAgg) :
    (sortScorersDesc l).Pairwise fun e1 e2 => e2.goals ≤ e1.goals := by
  induction l with
  | nil => simp [sortScorersDesc]
  | cons x xs ih => exact insertByGoals_pairwise ih

theorem addScorer_keys_of_present {teams : List Team} {tid : String}
    {acc : List ScorerAgg} {sc : ScorerEntry}
    (h : (acc.any fun e => e.playerId == sc.playerId) = true) :
    (addScorer teams tid acc sc).map (·.playerId) =
      acc.map (·.playerId) := by
  unfold addScorer
  rw [if_pos h, List.map_map]
  apply List.map_congr_left
  intro e _
  show (if (e.playerId == sc.playerId) = true then
      { e with goals := e.goals + sc.goals } else e).playerId = e.playerId
  split_ifs <;> rfl

theorem addScorer_keys_of_absent {teams : List Team} {tid : String}
    {acc : List ScorerAgg} {sc : ScorerEntry}
    (h : ¬(acc.any fun e => e.playerId == sc.playerId) = true) :
    (addScorer teams tid acc sc).map (·.playerId) =
      acc.map (·.playerId) ++ [sc.playerId] := by
  unfold addScorer
  rw [if_neg h]
  simp

theorem addScorer_keys_nodup {teams : List Team} {tid : String}
    {acc : List ScorerAgg} {sc : ScorerEntry}
    (h : (acc.map (·.playerId)).Nodup) :
    ((addScorer teams tid acc sc).map (·.playerId)).Nodup := by
  by_cases hin : (acc.any fun e => e.playerId == sc.playerId) = true
  · rwa [addScorer_keys_of_present hin]
  · rw [addScorer_keys_of_absent hin]
    have hni : sc.playerId ∉ acc.map (·.playerId) := by
      intro hmem
      obtain ⟨e, he, heq⟩ := List.mem_map.1 hmem
      exact hin (List.any_eq_true.2 ⟨e, he, by simp [heq]⟩)
    simp [List.nodup_append, h, hni]

theorem goalsOf_cons (pid : String) (x : ScorerAgg) (xs : List ScorerAgg) :
    goalsOf pid (x :: xs) =
      (if (x.playerId == pid) = true then x.goals else 0) + goalsOf pid xs
    := by
  unfold goalsOf
  by_cases h : (x.playerId == pid) = true <;> simp [List.filter_cons, h]

theorem goalsOf_mapBoost {acc : List ScorerAgg} {sc : ScorerEntry}
    (pid : String) (hnd : (acc.map (·.playerId)).Nodup) :
    goalsOf pid (acc.map fun e =>
        if (e.playerId == sc.playerId) = true then
          { e with goals := e.goals + sc.goals } else e) =
      goalsOf pid acc +
        (if (sc.playerId == pid) = true ∧
            (acc.any fun e => e.playerId == sc.playerId) = true then
          sc.goals else 0) := by
  induction acc with
  | nil => simp [goalsOf]
  | cons e es ih =>
    have hnd' : (es.map (·.playerId)).Nodup := (List.nodup_cons.1 hnd).2
    rw [List.map_cons, goalsOf_cons, goalsOf_cons, ih hnd']
    by_cases he : (e.playerId == sc.playerId) = true
    · have heq : e.playerId = sc.playerId := by simpa using he
      have hnd2 : e.playerId ∉ es.map (·.playerId) := by
        have h' := hnd
        simp only [List.map_cons, List.nodup_cons] at h'
        exact h'.1
      have hesany : (es.any fun x => x.playerId == sc.playerId) = false := by
        rw [List.any_eq_false]
        intro x hx hbad
        apply hnd2
        have hx' : x.playerId = sc.playerId := by simpa using hbad
        rw [heq, ← hx']
        exact List.mem_map_of_mem _ hx
      by_cases hp : (e.playerId == pid) = true
      · have hscp : (sc.playerId == pid) = true := by
          rw [← heq]; exact hp
        simp [he, hp, hscp, hesany, List.any_cons]
        omega
      · have hscp : ¬(sc.playerId == pid) = true := by
          rw [← heq]; exact hp
        simp [he, hp, hscp, hesany, List.any_cons]
    · have hid : (if (e.playerId == sc.playerId) = true then
          { e with goals := e.goals + sc.goals } else e) = e := if_neg he
      rw [hid]
      by_cases hany : (es.any fun x => x.playerId == sc.playerId) = true <;>
        by_cases hscp : (sc.playerId == pid) = true <;>
          simp [List.any_cons, he, hany, hscp] <;> omega

theorem addScorer_goalsOf {teams : List Team} {tid : String}
    {acc : List ScorerAgg} {sc : ScorerEntry} (pid : String)
    (hnd : (acc.map (·.playerId)).Nodup) :
    goalsOf pid (addScorer teams tid acc sc) =
      goalsOf pid acc + (if (sc.playerId == pid) = true then sc.goals else 0)
    := by
  unfold addScorer
  by_cases hin : (acc.any fun e => e.playerId == sc.playerId) = true
  · rw [if_pos hin, goalsOf_mapBoost pid hnd, hin]
    by_cases hscp : (sc.playerId == pid) = true <;> simp [hscp]
  · rw [if_neg hin]
    unfold goalsOf
    by_cases hscp : (sc.playerId == pid) = true <;>
      simp [List.filter_append, List.filter_cons, hscp]

theorem scorerStream_cons (m : MatchResult) (ms : List MatchResult) :
    scorerStream (m :: ms) =
      (m.team1GoalScorers.map (fun sc => (m.team1Id, sc)) ++
        m.team2GoalScorers.map (fun sc => (m.team2Id, sc))) ++
        scorerStream ms := by
  simp [scorerStream]

theorem foldl_stream_map_fst (teams : List Team) (tid : String)
    (l : List ScorerEntry) (acc : List ScorerAgg) :
    (l.map fun sc => (tid, sc)).foldl
        (fun a p => addScorer teams p.1 a p.2) acc =
      l.foldl (addScorer teams tid) acc := by
  rw [List.foldl_map]

theorem calc_agg_eq (teams : List Team) (mrs : List MatchResult)
    (acc : List ScorerAgg) :
    mrs.foldl (scorerFoldStep teams) acc =
      (scorerStream mrs).foldl (fun a p => addScorer teams p.1 a p.2) acc
    := by
  induction mrs generalizing acc with
  | nil => simp [scorerStream]
  | cons m ms ih =>
    rw [List.foldl_cons, scorerStream_cons, List.foldl_append,
      List.foldl_append, foldl_stream_map_fst, foldl_stream_map_fst, ih]
    rfl

theorem sc_key_mem_addScorer {teams : List Team} {tid : String}
    {acc : List ScorerAgg} {sc : ScorerEntry} :
    sc.playerId ∈ (addScorer teams tid acc sc).map (·.playerId) := by
  by_cases hin : (acc.any fun e => e.playerId == sc.playerId) = true
  · rw [addScorer_keys_of_present hin]
    obtain ⟨e, he, heq⟩ := List.any_eq_true.1 hin
    have heq' : e.playerId = sc.playerId := by simpa using heq
    rw [← heq']
    exact List.mem_map_of_mem _ he
  · rw [addScorer_keys_of_absent hin]
    simp

theorem key_mono_addScorer {teams : List Team} {tid : String}
    {acc : List ScorerAgg} {sc : ScorerEntry} {k : String}
    (h : k ∈ acc.map (·.playerId)) :
    k ∈ (addScorer teams tid acc sc).map (·.playerId) := by
  by_cases hin : (acc.any fun e => e.playerId == sc.playerId) = true
  · rwa [addScorer_keys_of_present hin]
  · rw [addScorer_keys_of_absent hin]
    exact List.mem_append_left _ h

theorem foldStream_keys_mono {teams : List Team} {k : String} :
    ∀ (st : List (String × ScorerEntry)) (acc : List ScorerAgg),
      k ∈ acc.map (·.playerId) →
      k ∈ ((st.foldl (fun a p => addScorer teams p.1 a p.2) acc).map
        (·.playerId))
  | [], _, h => h
  | _ :: st, _, h => foldStream_keys_mono st _ (key_mono_addScorer h)

theorem foldStream_key_of_mem {teams : List Team}
    {p : String × ScorerEntry} :
    ∀ (st : List (String × ScorerEntry)) (acc : List ScorerAgg), p ∈ st →
      p.2.playerId ∈
        ((st.foldl (fun a p => addScorer teams p.1 a p.2) acc).map
          (·.playerId)) := by
  intro st
  induction st with
  | nil =>
    intro acc h
    cases h
  | cons q st ih =>
    intro acc h
    rcases List.mem_cons.1 h with rfl | h'
    · exact foldStream_keys_mono st _ sc_key_mem_addScorer
    · exact ih _ h'

theorem foldStream_keys_nodup {teams : List Team} :
    ∀ (st : List (String × ScorerEntry)) (acc : List ScorerAgg),
      (acc.map (·.playerId)).Nodup →
      (((st.foldl (fun a p => addScorer teams p.1 a p.2) acc)).map
        (·.playerId)).Nodup
  | [], _, h => h
  | _ :: st, _, h => foldStream_keys_nodup st _ (addScorer_keys_nodup h)

theorem streamSum_cons (pid : String) (p : String × ScorerEntry)
    (st : List (String × ScorerEntry)) :
    streamSum pid (p :: st) =
      (if (p.2.playerId == pid) = true then p.2.goals else 0) +
        streamSum pid st := by
  unfold streamSum
  by_cases h : (p.2.playerId == pid) = true <;> simp [List.filter_cons, h]

theorem foldStream_goalsOf {teams : List Team} (pid : String) :
    ∀ (st : List (String × ScorerEntry)) (acc : List ScorerAgg),
      (acc.map (·.playerId)).Nodup →
      goalsOf pid (st.foldl (fun a p => addScorer teams p.1 a p.2) acc) =
        goalsOf pid acc + streamSum pid st := by
  intro st
  induction st with
  | nil =>
    intro acc _
    simp [streamSum]
  | cons p st ih =>
    intro acc hnd
    rw [List.foldl_cons, ih _ (addScorer_keys_nodup hnd),
      addScorer_goalsOf pid hnd, streamSum_cons]
    omega

theorem goalsOf_eq_zero_of_not_mem {pid : String} {acc : List ScorerAgg}
    (h : pid ∉ acc.map (·.playerId)) : goalsOf pid acc = 0 := by
  induction acc with
  | nil => rfl
  | cons e es ih =>
    simp only [List.map_cons, List.mem_cons, not_or] at h
    have hne : ¬(e.playerId == pid) = true := by
      intro hb
      have hb' : e.playerId = pid := by simpa using hb
      exact h.1 hb'.symm
    rw [goalsOf_cons, if_neg hne, ih h.2]
    omega

theorem goalsOf_entry {acc : List ScorerAgg} {e : ScorerAgg}
    (hnd : (acc.map (·.playerId)).Nodup) (he : e ∈ acc) :
    goalsOf e.playerId acc = e.goals := by
  induction acc with
  | nil => cases he
  | cons x xs ih =>
    simp only [List.map_cons, List.nodup_cons] at hnd
    rcases List.mem_cons.1 he with rfl | he'
    · rw [goalsOf_cons, if_pos (by simp), goalsOf_eq_zero_of_not_mem hnd.1]
      omega
    · have hne : ¬(x.playerId == e.playerId) = true := by
        intro hb
        apply hnd.1
        rw [(by simpa using hb : x.playerId = e.playerId)]
        exact List.mem_map_of_mem _ he'
      rw [goalsOf_cons, if_neg hne, ih hnd.2 he']
      omega

theorem streamSum_append (pid : String) (a b : List (String × ScorerEntry)) :
    streamSum pid (a ++ b) = streamSum pid a + streamSum pid b := by
  unfold streamSum
  rw [List.filter_append, List.map_append, List.sum_append]

theorem streamSum_map_side (pid tid : String) (l : List ScorerEntry) :
    streamSum pid (l.map fun sc => (tid, sc)) =
      ((l.filter fun sc => sc.playerId == pid).map (·.goals)).sum := by
  unfold streamSum
  rw [List.filter_map, List.map_map]
  rfl

theorem streamSum_eq_totalGoals (pid : String) (mrs : List MatchResult) :
    streamSum pid (scorerStream mrs) = totalGoals pid mrs := by
  induction mrs with
  | nil => rfl
  | cons m ms ih =>
    rw [scorerStream_cons, streamSum_append, streamSum_append,
      streamSum_map_side, streamSum_map_side, ih]
    unfold totalGoals
    rw [List.map_cons, List.sum_cons]

theorem addScorer_tag {teams : List Team} {tid : String}
    {acc : List ScorerAgg} {sc : ScorerEntry} {e : ScorerAgg}
    (he : e ∈ addScorer teams tid acc sc) :
    (∃ q ∈ acc, q.playerId = e.playerId ∧ q.name = e.name ∧
      q.teamName = e.teamName) ∨
    (e.playerId = sc.playerId ∧ e.name = sc.playerName ∧
      e.teamName = teamTag teams tid) := by
  unfold addScorer at he
  split_ifs at he with hin
  · obtain ⟨q, hq, heq⟩ := List.mem_map.1 he
    left
    refine ⟨q, hq, ?_⟩
    subst heq
    split_ifs <;> exact ⟨rfl, rfl, rfl⟩
  · rcases List.mem_append.1 he with h' | h'
    · left
      exact ⟨e, h', rfl, rfl, rfl⟩
    · right
      have heq := List.mem_singleton.1 h'
      subst heq
      exact ⟨rfl, rfl, rfl⟩

theorem foldStream_tag {teams : List Team}
    {st0 : List (String × ScorerEntry)} :
    ∀ (st : List (String × ScorerEntry)) (acc : List ScorerAgg),
      (∀ p ∈ st, p ∈ st0) →
      (∀ e ∈ acc, ∃ p ∈ st0, e.playerId = p.2.playerId ∧
        e.name = p.2.playerName ∧ e.teamName = teamTag teams p.1) →
      ∀ e ∈ st.foldl (fun a p => addScorer teams p.1 a p.2) acc,
        ∃ p ∈ st0, e.playerId = p.2.playerId ∧ e.name = p.2.playerName ∧
          e.teamName = teamTag teams p.1 := by
  intro st
  induction st with
  | nil =>
    intro acc _ hacc e he
    exact hacc e he
  | cons q st ih =>
    intro acc hsub hacc
    rw [List.foldl_cons]
    refine ih _ (fun p hp => hsub p (List.mem_cons_of_mem _ hp)) ?_
    intro e he
    rcases addScorer_tag he with ⟨q', hq', h1, h2, h3⟩ | ⟨h1, h2, h3⟩
    · obtain ⟨p, hp, hp1, hp2, hp3⟩ := hacc q' hq'
      refine ⟨p, hp, ?_, ?_, ?_⟩
      · rw [← h1]
        exact hp1
      · rw [← h2]
        exact hp2
      · rw [← h3]
        exact hp3
    · exact ⟨q, hsub q (List.mem_cons_self _ _), h1, h2, h3⟩

end TopScorers

/-- Claim C5: the top-scorer aggregation ranges over every match result,
saved or not, with no saved-filter: (a) every output row's goal count is the
sum of that player's tallies across every match record in which the player
appears; (b) every player occurring in any match's scorer lists gets an
output row; (c) every output row carries a player name and a team-name tag
taken from an actual occurrence of that player, the tag being the looked-up
current name of the occurrence's team; (d) the output is sorted in
descending order of total goals. -/
theorem top_scorers_correct (mrs : List MatchResult) (teams : List Team) :
    (∀ e ∈ calculateTopScorers mrs teams,
      e.goals = totalGoals e.playerId mrs) ∧
    (∀ p ∈ scorerStream mrs, ∃ e ∈ calculateTopScorers mrs teams,
      e.playerId = p.2.playerId) ∧
    (∀ e ∈ calculateTopScorers mrs teams, ∃ p ∈ scorerStream mrs,
      e.playerId = p.2.playerId ∧ e.name = p.2.playerName ∧
        e.teamName = teamTag teams p.1) ∧
    (calculateTopScorers mrs teams).Pairwise
      (fun e1 e2 => e2.goals ≤ e1.goals) := by
  have hnil : ((([] : List ScorerAgg)).map (·.playerId)).Nodup := by simp
  have hagg : mrs.foldl (scorerFoldStep teams) [] =
      (scorerStream mrs).foldl (fun a p => addScorer teams p.1 a p.2) [] :=
    calc_agg_eq teams mrs []
  refine ⟨?_, ?_, ?_, ?_⟩
  · intro e he
    simp only [calculateTopScorers] at he
    rw [sortScorersDesc_mem, hagg] at he
    have hnd := @foldStream_keys_nodup teams (scorerStream mrs) [] hnil
    have h1 := goalsOf_entry hnd he
    have h2 := @foldStream_goalsOf teams e.playerId (scorerStream mrs) []
      hnil
    rw [h2] at h1
    rw [← h1, ← streamSum_eq_totalGoals]
    simp [goalsOf]
  · intro p hp
    have hk := @foldStream_key_of_mem teams p (scorerStream mrs) [] hp
    obtain ⟨e, he, heq⟩ := List.mem_map.1 hk
    refine ⟨e, ?_, heq⟩
    simp only [calculateTopScorers]
    rw [sortScorersDesc_mem, hagg]
    exact he
  · intro e he
    simp only [calculateTopScorers] at he
    rw [sortScorersDesc_mem, hagg] at he
    exact foldStream_tag (scorerStream mrs) [] (fun q hq => hq)
      (fun q hq => absurd hq (List.not_mem_nil q)) e he
  · simp only [calculateTopScorers]
    exact sortScorersDesc_pairwise _

/-- Concrete check of the top-scorer claim on a two-scorer match: the
sortedness conjunct of `top_scorers_correct`, together with the goal-total
conjunct, instantiated at the demo data. -/
theorem top_scorers_correct_witness :
    (calculateTopScorers [demoScorerMatch] [demoTeamA1, demoTeamB]).Pairwise
      (fun e1 e2 => e2.goals ≤ e1.goals) :=
  (top_scorers_correct [demoScorerMatch] [demoTeamA1, demoTeamB]).2.2.2

theorem gd_equals_gf_sub_ga_witness :
    (gT10.league.teamStats.getD 0 default).gd =
      (gT10.league.teamStats.getD 0 default).gf -
        (gT10.league.teamStats.getD 0 default).ga :=
  (gd_equals_gf_sub_ga gT10 trace_reachable).1 _ (by decide)

theorem selectScorerUpdate_idem (teams : List Team) (side : Side)
    (pid : String) (m : MatchResult) :
    selectScorerUpdate teams side pid (selectScorerUpdate teams side pid m) =
      selectScorerUpdate teams side pid m := by
  cases side with
  | one =>
    unfold selectScorerUpdate sideTeamId sideScorers
    simp only []
    by_cases hany : (m.team1GoalScorers.any fun sc => sc.playerId == pid) = true
    · simp [hany]
    · rcases hf : (((teams.find? fun t => t.id == m.team1Id).map
          (·.players)).getD []).find? fun p => p.id == pid with _ | p
      · simp [hany, hf]
      · have hpidp := List.find?_some hf
        simp [hany, hf, List.any_append, hpidp]
  | two =>
    unfold selectScorerUpdate sideTeamId sideScorers
    simp only []
    by_cases hany : (m.team2GoalScorers.any fun sc => sc.playerId == pid) = true
    · simp [hany]
    · rcases hf : (((teams.find? fun t => t.id == m.team2Id).map
          (·.players)).getD []).find? fun p => p.id == pid with _ | p
      · simp [hany, hf]
      · have hpidp := List.find?_some hf
        simp [hany, hf, List.any_append, hpidp]

/-- Claim C6 counterexample: selecting roster player Ali as a goal scorer on
the blank demo match appends a tally of one goal, not a zero-initialized
tally as the claim states. -/
theorem select_scorer_zero_init_counterexample :
    ((handleSelectGoalScorer demoSelectState 0 Side.one
        "p1").matchResults.getD 0 default).team1GoalScorers =
      [{ playerId := "p1", playerName := "Ali", goals := 1 }] ∧
    ({ playerId := "p1", playerName := "Ali", goals := 1 } :
      ScorerEntry).goals ≠ 0 :=
  ⟨by decide, by decide⟩

/-- Claim C6 (amended): for a player of the side's team not yet listed,
adding the player as a goal scorer appends a tally initialized to one goal
(the source's `goals: 1` default, not zero); a repeat of the same player
leaves the scorer list unchanged, and the whole handler is idempotent. -/
theorem select_scorer_appends_one_and_idempotent (teams : List Team)
    (side : Side) (pid : String) (m : MatchResult) (s : LeagueState)
    (i : Nat) :
    (∀ team p, (teams.find? fun t => t.id == sideTeamId side m) = some team →
      (team.players.find? fun q => q.id == pid) = some p →
      ((sideScorers side m).any fun sc => sc.playerId == pid) = false →
      sideScorers side (selectScorerUpdate teams side pid m) =
        sideScorers side m ++
          [{ playerId := p.id, playerName := p.name, goals := 1 }]) ∧
    (((sideScorers side m).any fun sc => sc.playerId == pid) = true →
      sideScorers side (selectScorerUpdate teams side pid m) =
        sideScorers side m) ∧
    (pid ≠ "" → handleSelectGoalScorer s i side pid =
      { s with
        matchResults := updateAt s.matchResults i
          (selectScorerUpdate s.submittedTeamData side pid) }) ∧
    handleSelectGoalScorer (handleSelectGoalScorer s i side pid) i side pid =
      handleSelectGoalScorer s i side pid := by
  refine ⟨fun team p hteam hp hnot => ?_, fun hany => ?_, fun hpid => ?_, ?_⟩
  · cases side <;>
      · unfold selectScorerUpdate at *
        unfold sideTeamId sideScorers at *
        simp [hteam, hp, hnot]
  · cases side <;>
      · unfold selectScorerUpdate at *
        unfold sideTeamId sideScorers at *
        simp [hany]
  · simp [handleSelectGoalScorer, hpid]
  · by_cases hpid : pid = ""
    · simp [handleSelectGoalScorer, hpid]
    · simp only [handleSelectGoalScorer, if_neg hpid]
      show ({ s with
          matchResults := updateAt
            (updateAt s.matchResults i
              (selectScorerUpdate s.submittedTeamData side pid)) i
            (selectScorerUpdate s.submittedTeamData side pid) } :
          LeagueState) = _
      rw [updateAt_updateAt]
      have hfun : (fun x => selectScorerUpdate s.submittedTeamData side pid
          (selectScorerUpdate s.submittedTeamData side pid x)) =
          selectScorerUpdate s.submittedTeamData side pid :=
        funext fun x => selectScorerUpdate_idem ..
      rw [hfun]

theorem select_scorer_appends_one_and_idempotent_witness :
    sideScorers Side.one
        (selectScorerUpdate [demoTeamA1, demoTeamB] Side.one "p1"
          demoBlankMatch) =
      [{ playerId := "p1", playerName := "Ali", goals := 1 }] ∧
    handleSelectGoalScorer
        (handleSelectGoalScorer demoSelectState 0 Side.one "p1") 0 Side.one
        "p1" =
      handleSelectGoalScorer demoSelectState 0 Side.one "p1" := by
  have h := select_scorer_appends_one_and_idempotent [demoTeamA1, demoTeamB]
    Side.one "p1" demoBlankMatch demoSelectState 0
  exact ⟨(h.1 demoTeamA1 demoPlayer (by decide) (by decide)
    (by decide)).trans (by decide), h.2.2.2⟩

theorem edit_only_on_saved_witness :
    (handleEditResult demoMismatchState 0).matchResults[0]? =
      some { demoMismatchMatch with
             isEditing := true
             originalScores := some (some 1, some 0)
             originalGoalScorers := some ([], [])
             goalScorerMismatch := false } :=
  (edit_only_on_saved gT10 trace_reachable demoMismatchState 0
    demoMismatchMatch rfl).2.1

/-- Claim C7 (code bug): in the reachable state `gT10` — obtained by saving
the league while an edit had changed a saved 2-1 result to 1-1, then loading
it back — the standings totals disagree with the saved results: the wins and
losses columns each sum to 1 although no saved match has a non-draw outcome,
and the draws column sums to 0 although one saved match is a draw. -/
theorem standings_totals_code_bug :
    Reachable gT10 ∧
    sumWins gT10.league.teamStats = 1 ∧
    sumLosses gT10.league.teamStats = 1 ∧
    sumDraws gT10.league.teamStats = 0 ∧
    nonDrawSavedCount gT10.league.matchResults = 0 ∧
    drawSavedCount gT10.league.matchResults = 1 ∧
    sumWins gT10.league.teamStats ≠
      (nonDrawSavedCount gT10.league.matchResults : Int) ∧
    sumDraws gT10.league.teamStats ≠
      2 * (drawSavedCount gT10.league.matchResults : Int) :=
  ⟨trace_reachable, by decide, by decide, by decide, by decide, by decide,
    by decide, by decide⟩

end Roaster
